import Mathlib

/-!
Verification of the performance-insights engine (insights API route,
`detectAnomalies` / `generateBudgetRecommendations` / `generateForecasts` /
`calculatePacing` / `calculateHealthScore` / `generateKeyInsights` and the
report assembly in the route handler).

Embedding conventions:
* JS numbers are embedded as exact rationals (`ℚ`); the engine only adds,
  subtracts, multiplies, divides and compares, so every value is rational.
  In `ℚ`, `x / 0 = 0`; every place where the source can divide by zero is
  called out in a comment.
* ISO date strings (`YYYY-MM-DD`) compare lexicographically exactly as they
  compare chronologically; dates are embedded as day ordinals (`Nat`), and
  both the string comparisons and the `new Date(...)` comparisons of the
  source become `≤` on `Nat`.
* The wall clock (used only for month boundaries) is threaded as an explicit
  `MonthClock` value: the day ordinal of the first day of the current month,
  the number of days in the current month, and the day-of-month of today
  (`today.getDate()`).
* JS `Map` preserves first-insertion key order and `Array.prototype.sort` is
  stable; maps are embedded as association lists in first-insertion order
  (`mapUpd`/`mapFold`) and sorts as the stable `List.insertionSort r` with
  `r a b` meaning "comparator a b ≤ 0".
* `Number.prototype.toFixed` is embedded as exact decimal rounding (round
  half away from zero) of the rational value.
* The z-score comparison `|z| ≥ t` with `z = (current − mean) / √variance`
  is embedded in the equivalent squared form `t² · variance ≤ (current −
  mean)²`, which keeps the definitions inside `ℚ`; `std === 0` is exactly
  `variance = 0`.
-/

/-! ## Data model -/

/-- One row of `perf_campaign_daily` joined with the campaign name/provider,
as the route's `DailyMetric` interface. -/
structure DailyMetric where
  campaignId : String
  campaignName : String
  provider : String
  date : Nat
  impressions : ℚ
  clicks : ℚ
  spendMicros : ℚ
  conversions : ℚ
  conversionValue : ℚ
deriving DecidableEq

/-- A campaign row as consumed by the budget and pacing engines
(`campaigns.$inferSelect`: only `id`, `name`, `provider` and
`dailyBudgetMicros` are read; a SQL NULL budget is `none`). -/
structure Campaign where
  id : String
  name : String
  provider : String
  dailyBudgetMicros : Option ℚ
deriving DecidableEq

/-- Month-boundary information drawn from the wall clock: `startOfMonth` is
the day ordinal of the first of the current month, `daysInMonth` the length
of the current month, `daysElapsed` is `today.getDate()`. -/
structure MonthClock where
  startOfMonth : Nat
  daysInMonth : Nat
  daysElapsed : Nat
deriving DecidableEq

inductive Severity where
  | warning
  | critical
deriving DecidableEq

inductive Direction where
  | increase
  | decrease
deriving DecidableEq

/-- The four metrics the anomaly detector checks (`metricsToCheck`). -/
inductive MetricKey where
  | ctr
  | cpc
  | cpa
  | spend
deriving DecidableEq

inductive Priority where
  | high
  | medium
  | low
deriving DecidableEq

inductive TrendKind where
  | up
  | down
  | stable
deriving DecidableEq

inductive ConfidenceKind where
  | high
  | medium
  | low
deriving DecidableEq

inductive PacingState where
  | on_track
  | underspending
  | overspending
deriving DecidableEq

/-- The three metrics the forecaster projects (`metricsToForecast`). -/
inductive ForecastKey where
  | spend
  | conversions
  | clicks
deriving DecidableEq

structure Anomaly where
  campaignId : String
  campaignName : String
  provider : String
  metric : MetricKey
  currentValue : ℚ
  expectedValue : ℚ
  deviationPct : ℚ
  severity : Severity
  direction : Direction
  message : String
deriving DecidableEq

structure BudgetRecommendation where
  campaignId : String
  campaignName : String
  provider : String
  currentBudget : ℚ
  recommendedBudget : ℚ
  changePct : ℚ
  reason : String
  priority : Priority
deriving DecidableEq

structure Forecast where
  metric : ForecastKey
  metricName : String
  currentPeriodActual : ℚ
  currentPeriodProjected : ℚ
  nextPeriodForecast : ℚ
  trend : TrendKind
  trendPct : ℚ
  confidence : ConfidenceKind
deriving DecidableEq

structure PacingStatus where
  campaignId : String
  campaignName : String
  provider : String
  periodBudget : ℚ
  spentToDate : ℚ
  pacingStatus : PacingState
  projectedSpend : ℚ
  projectedVariance : ℚ
  recommendation : String
deriving DecidableEq

structure AnomalySummary where
  total : Nat
  critical : Nat
  warning : Nat
  items : List Anomaly
deriving DecidableEq

/-- The `InsightsResponse` value assembled by the route handler.
`generatedAt` (a wall-clock ISO timestamp stamped on the way out) carries no
analytical content and is omitted from the embedding. -/
structure InsightsReport where
  healthScore : ℚ
  keyInsights : List String
  anomalies : AnomalySummary
  budgetRecommendations : List BudgetRecommendation
  forecasts : List Forecast
  pacing : List PacingStatus
deriving DecidableEq

/-! ## Number formatting

`toFixedQ d q` embeds `q.toFixed(d)`: the rational is rounded to `d` decimal
places (half away from zero, the idealisation of the spec's real-number
semantics) and rendered with exactly `d` fractional digits. -/

/-- Render a non-negative scaled integer `n` as a decimal with `d` fractional
digits (`n` counts units of `10^(-d)`). -/
def decimalOfNat (d n : Nat) : String :=
  if d = 0 then Nat.repr n
  else
    let fs := Nat.repr (n % 10 ^ d)
    Nat.repr (n / 10 ^ d) ++ "." ++ (List.replicate (d - fs.length) '0').asString ++ fs

def toFixedQ (d : Nat) (q : ℚ) : String :=
  if q < 0 then "-" ++ decimalOfNat d (⌊-q * (10 : ℚ) ^ d + 1 / 2⌋).toNat
  else decimalOfNat d (⌊q * (10 : ℚ) ^ d + 1 / 2⌋).toNat

/-! ## Association-list maps

A JS `Map` built by `if (!m.has(k)) m.set(k, init); combine into m.get(k)` is
an association list in first-insertion key order.  `mapUpd key z comb` is one
update step: the entry for `key x` is combined with `x` (`comb`), a missing
entry starts from the zero value `z`. -/

def mapUpd {α κ υ : Type} [DecidableEq κ] (key : α → κ) (z : υ) (comb : υ → α → υ)
    (acc : List (κ × υ)) (x : α) : List (κ × υ) :=
  if acc.any (fun g => g.1 = key x) then
    acc.map (fun g => if g.1 = key x then (g.1, comb g.2 x) else g)
  else acc ++ [(key x, comb z x)]

def mapFold {α κ υ : Type} [DecidableEq κ] (key : α → κ) (z : υ) (comb : υ → α → υ)
    (xs : List α) : List (κ × υ) :=
  xs.foldl (mapUpd key z comb) []

/-- `m.get(k)` on the finished map (`none` when the key was never inserted). -/
def mapFind {α κ υ : Type} [DecidableEq κ] (key : α → κ) (z : υ) (comb : υ → α → υ)
    (xs : List α) (c : κ) : Option υ :=
  ((mapFold key z comb xs).find? (fun g => g.1 = c)).map (fun g => g.2)

/-! ## Derived per-record metrics -/

/-- `spendMicros / 1_000_000`. -/
def spend (m : DailyMetric) : ℚ := m.spendMicros / 1000000

/-- The enriched per-record value of one tracked metric, exactly the guarded
ratios of the enrichment step of `detectAnomalies`. -/
def metricValue (k : MetricKey) (m : DailyMetric) : ℚ :=
  match k with
  | MetricKey.ctr => if 0 < m.impressions then m.clicks / m.impressions * 100 else 0
  | MetricKey.cpc => if 0 < m.clicks then spend m / m.clicks else 0
  | MetricKey.cpa => if 0 < m.conversions then spend m / m.conversions else 0
  | MetricKey.spend => spend m

/-- The `metricNames` record used in anomaly messages. -/
def metricLabel : MetricKey → String
  | MetricKey.ctr => "CTR"
  | MetricKey.cpc => "CPC"
  | MetricKey.cpa => "CPA"
  | MetricKey.spend => "Spend"

def directionLabel : Direction → String
  | Direction.increase => "increase"
  | Direction.decrease => "decrease"

/-! ## Anomaly detector -/

/-- Sort key of the per-campaign date sort
(`(a, b) => new Date(a.date).getTime() - new Date(b.date).getTime()`). -/
def dateLE (a b : DailyMetric) : Prop := a.date ≤ b.date

instance : DecidableRel dateLE := fun a b => inferInstanceAs (Decidable (a.date ≤ b.date))

instance : IsTotal DailyMetric dateLE := ⟨fun a b => Nat.le_total a.date b.date⟩

instance : IsTrans DailyMetric dateLE := ⟨fun _ _ _ h h' => Nat.le_trans h h'⟩

/-- Placeholder record used only as the (unreachable) default of `headD` /
`getLastD` on lists the guards have already shown to be non-empty. -/
def emptyMetric : DailyMetric := ⟨"", "", "", 0, 0, 0, 0, 0, 0⟩

/-- A campaign's records sorted ascending by date (stable, as JS `sort`). -/
def seriesSort (l : List DailyMetric) : List DailyMetric := List.insertionSort dateLE l

/-- The historical window: everything before the most recent record
(`slice(0, -1)`), restricted to the last 30 records (`slice(-lookbackDays)`,
`lookbackDays = 30`). -/
def seriesHist (l : List DailyMetric) : List DailyMetric :=
  let w := (seriesSort l).dropLast
  w.drop (w.length - 30)

/-- `historical.map(h => h[metric]).filter(v => v > 0)`. -/
def posValues (k : MetricKey) (hist : List DailyMetric) : List ℚ :=
  (hist.map (metricValue k)).filter (fun v => 0 < v)

def listMean (vs : List ℚ) : ℚ := vs.sum / vs.length

/-- Population variance: `Σ (v − mean)² / length`.  The source takes
`std = Math.sqrt(variance)`; the embedding keeps the variance and compares
squares (see the header comment). -/
def listVariance (vs : List ℚ) : ℚ :=
  ((vs.map fun v => (v - listMean vs) ^ 2).sum) / vs.length

/-- The anomaly object pushed for one campaign/metric.  `9 * variance ≤
(current − mean)²` is `|z| ≥ 3` and `0 < current − mean` is `z > 0` (the
pushing branch has `std > 0`). -/
def mkAnomaly (cid cname prov : String) (k : MetricKey) (current mean variance : ℚ) :
    Anomaly :=
  let deviationPct := if 0 < mean then (current - mean) / mean * 100 else 0
  let direction := if 0 < current - mean then Direction.increase else Direction.decrease
  { campaignId := cid, campaignName := cname, provider := prov, metric := k,
    currentValue := current, expectedValue := mean, deviationPct := deviationPct,
    severity := if 9 * variance ≤ (current - mean) ^ 2 then Severity.critical
      else Severity.warning,
    direction := direction,
    message := cname ++ ": " ++ metricLabel k ++ " " ++ directionLabel direction ++
      "d by " ++ toFixedQ 1 |deviationPct| ++ "%" }

/-- The per-metric body of the inner loop of `detectAnomalies`: positive
historical sample of at least 5 values, non-zero variance (`std === 0`
guard), and the `|z| ≥ 2` test in squared form `4 * variance ≤
(current − mean)²`. -/
def checkMetric (cid cname prov : String) (recent : DailyMetric)
    (hist : List DailyMetric) (k : MetricKey) : Option Anomaly :=
  let values := posValues k hist
  if values.length < 5 then none
  else
    let mean := listMean values
    let variance := listVariance values
    if variance = 0 then none
    else
      let current := metricValue k recent
      if 4 * variance ≤ (current - mean) ^ 2 then
        some (mkAnomaly cid cname prov k current mean variance)
      else none

/-- The per-campaign body of `detectAnomalies`: skip groups of fewer than 7
records, sort by date, split most-recent vs (≤30)-record history, require at
least 7 historical records, then check the four metrics in order. -/
def campaignAnomalies (g : String × List DailyMetric) : List Anomaly :=
  if g.2.length < 7 then []
  else if (seriesHist g.2).length < 7 then []
  else
    [MetricKey.ctr, MetricKey.cpc, MetricKey.cpa, MetricKey.spend].filterMap
      (checkMetric g.1 ((seriesSort g.2).headD emptyMetric).campaignName
        ((seriesSort g.2).headD emptyMetric).provider
        ((seriesSort g.2).getLastD emptyMetric) (seriesHist g.2))

/-- The `byCampaign` map: groups in first-appearance order, each group in
arrival order. -/
def groupByCampaign (ms : List DailyMetric) : List (String × List DailyMetric) :=
  mapFold (fun m => m.campaignId) [] (fun l m => l ++ [m]) ms

/-- All flagged anomalies in push order (before the final severity sort),
including the `metrics.length < 7` early return. -/
def flaggedAnomalies (ms : List DailyMetric) : List Anomaly :=
  if ms.length < 7 then [] else ((groupByCampaign ms).map campaignAnomalies).flatten

/-- The final comparator of `detectAnomalies` (critical first, then
`|b.deviationPct| - |a.deviationPct|`). -/
def anomCmp (a b : Anomaly) : ℚ :=
  if a.severity = Severity.critical ∧ b.severity ≠ Severity.critical then -1
  else if a.severity ≠ Severity.critical ∧ b.severity = Severity.critical then 1
  else |b.deviationPct| - |a.deviationPct|

/-- `anomCmp a b ≤ 0`: the sorted-before-or-tied relation of the stable
severity sort. -/
def anomLE (a b : Anomaly) : Prop := anomCmp a b ≤ 0

instance : DecidableRel anomLE := fun a b => inferInstanceAs (Decidable (anomCmp a b ≤ 0))

instance : IsTotal Anomaly anomLE :=
  ⟨fun a b => by
    rw [anomLE, anomLE, anomCmp, anomCmp]
    rcases le_total |a.deviationPct| |b.deviationPct| with h | h <;>
      cases ha : a.severity <;> cases hb : b.severity <;>
        simp [ha, hb, sub_nonpos] <;> first | exact Or.inl h | exact Or.inr h⟩

instance : IsTrans Anomaly anomLE :=
  ⟨fun a b c hab hbc => by
    rw [anomLE, anomCmp] at hab hbc ⊢
    cases ha : a.severity <;> cases hb : b.severity <;> cases hc : c.severity <;>
      simp [ha, hb, hc, sub_nonpos] at hab hbc ⊢ <;> linarith⟩

def detectAnomalies (ms : List DailyMetric) : List Anomaly :=
  List.insertionSort anomLE (flaggedAnomalies ms)

/-! ## Budget recommendation engine -/

/-- `Number.MAX_VALUE`, the sentinel CPA when a campaign has no conversions. -/
def numberMaxValue : ℚ := 2 ^ 1024 - 2 ^ 971

structure CampaignAgg where
  spend : ℚ
  conversions : ℚ
  conversionValue : ℚ
deriving DecidableEq

def zeroAgg : CampaignAgg := ⟨0, 0, 0⟩

/-- One `+=` step of the per-campaign aggregation of
`generateBudgetRecommendations`. -/
def aggStep (a : CampaignAgg) (m : DailyMetric) : CampaignAgg :=
  { spend := a.spend + m.spendMicros / 1000000,
    conversions := a.conversions + m.conversions,
    conversionValue := a.conversionValue + m.conversionValue }

/-- `byCampaign.get(campaign.id)` of the budget engine. -/
def campaignAgg (ms : List DailyMetric) (cid : String) : Option CampaignAgg :=
  mapFind (fun m => m.campaignId) zeroAgg aggStep ms cid

/-- `roas = agg.spend > 0 ? agg.conversionValue / agg.spend : 0`. -/
def campaignRoas (ms : List DailyMetric) (cid : String) : ℚ :=
  let a := (campaignAgg ms cid).getD zeroAgg
  if 0 < a.spend then a.conversionValue / a.spend else 0

/-- `cpa = agg.conversions > 0 ? agg.spend / agg.conversions :
Number.MAX_VALUE`. -/
def campaignCpa (ms : List DailyMetric) (cid : String) : ℚ :=
  let a := (campaignAgg ms cid).getD zeroAgg
  if 0 < a.conversions then a.spend / a.conversions else numberMaxValue

/-- `efficiency = roas * 10 - (cpa > 0 ? 1 / cpa : 0)`. -/
def campaignEfficiency (ms : List DailyMetric) (cid : String) : ℚ :=
  campaignRoas ms cid * 10 -
    (if 0 < campaignCpa ms cid then 1 / campaignCpa ms cid else 0)

structure EffEntry where
  campaign : Campaign
  efficiency : ℚ
  roas : ℚ
  cpa : ℚ
deriving DecidableEq

/-- The per-campaign body of the `efficiencies` loop: skip campaigns with no
window data or aggregate spend below 10 currency units.  Note that the source
does NOT require a budget here; the budget is only checked later, when a
recommendation is emitted. -/
def poolEntry (ms : List DailyMetric) (c : Campaign) : Option EffEntry :=
  match campaignAgg ms c.id with
  | none => none
  | some a =>
    if a.spend < 10 then none
    else some { campaign := c, efficiency := campaignEfficiency ms c.id,
                roas := campaignRoas ms c.id, cpa := campaignCpa ms c.id }

/-- The `efficiencies` array. -/
def efficiencyPool (cs : List Campaign) (ms : List DailyMetric) : List EffEntry :=
  cs.filterMap (poolEntry ms)

/-- `avgEfficiency = Σ efficiency / count` over the pool. -/
def avgEfficiency (cs : List Campaign) (ms : List DailyMetric) : ℚ :=
  ((efficiencyPool cs ms).map fun e => e.efficiency).sum / (efficiencyPool cs ms).length

def priorityOrder : Priority → ℕ
  | Priority.high => 0
  | Priority.medium => 1
  | Priority.low => 2

/-- The recommendation comparator `priorityOrder[a] - priorityOrder[b] ||
(|b.changePct| - |a.changePct|)` (JS `x || y` falls through on `0`). -/
def recCmp (a b : BudgetRecommendation) : ℚ :=
  if priorityOrder a.priority ≠ priorityOrder b.priority then
    (priorityOrder a.priority : ℚ) - priorityOrder b.priority
  else |b.changePct| - |a.changePct|

def recLE (a b : BudgetRecommendation) : Prop := recCmp a b ≤ 0

instance : DecidableRel recLE := fun a b => inferInstanceAs (Decidable (recCmp a b ≤ 0))

/-- `generateBudgetRecommendations`: record-count gate, efficiency pool of at
least two campaigns, ±30-clamped change proportional to the efficiency gap,
5% dead zone, then the stable priority sort. -/
def generateBudgetRecommendations (cs : List Campaign) (ms : List DailyMetric) :
    List BudgetRecommendation :=
  if ms.length < 7 then []
  else
    let effs := efficiencyPool cs ms
    if effs.length < 2 then []
    else
      let avg := avgEfficiency cs ms
      let recs := effs.filterMap fun e =>
        let currentBudget := (e.campaign.dailyBudgetMicros.getD 0) / 1000000
        if currentBudget = 0 then none
        else
          let changePct := max (-30) (min 30 ((e.efficiency - avg) * 10))
          if |changePct| < 5 then none
          else
            some { campaignId := e.campaign.id, campaignName := e.campaign.name,
                   provider := e.campaign.provider, currentBudget := currentBudget,
                   recommendedBudget := currentBudget * (1 + changePct / 100),
                   changePct := changePct,
                   reason :=
                     if 0 < changePct then
                       if 2 < e.roas then "High ROAS (" ++ toFixedQ 1 e.roas ++ "x)"
                       else "Low CPA ($" ++ toFixedQ 2 e.cpa ++ ")"
                     else
                       if e.roas < 1 then "Low ROAS (" ++ toFixedQ 1 e.roas ++ "x)"
                       else "High CPA ($" ++ toFixedQ 2 e.cpa ++ ")",
                   priority :=
                     if 20 ≤ |changePct| then Priority.high
                     else if 10 ≤ |changePct| then Priority.medium
                     else Priority.low }
      List.insertionSort recLE recs

/-! ## Forecaster -/

structure DateAgg where
  spend : ℚ
  conversions : ℚ
  clicks : ℚ
  impressions : ℚ
deriving DecidableEq

def zeroDateAgg : DateAgg := ⟨0, 0, 0, 0⟩

def dateStep (a : DateAgg) (m : DailyMetric) : DateAgg :=
  { spend := a.spend + m.spendMicros / 1000000,
    conversions := a.conversions + m.conversions,
    clicks := a.clicks + m.clicks,
    impressions := a.impressions + m.impressions }

/-- `byDate.get(d)!` (the `!` is total here: the forecaster only looks up
keys of the map). -/
def dateValue (ms : List DailyMetric) (d : Nat) : DateAgg :=
  (mapFind (fun m => m.date) zeroDateAgg dateStep ms d).getD zeroDateAgg

/-- `Array.from(byDate.keys()).sort()` — ISO date keys sorted ascending. -/
def forecastDates (ms : List DailyMetric) : List Nat :=
  List.insertionSort (fun a b => a ≤ b)
    ((mapFold (fun m => m.date) zeroDateAgg dateStep ms).map fun g => g.1)

def forecastValue (k : ForecastKey) (a : DateAgg) : ℚ :=
  match k with
  | ForecastKey.spend => a.spend
  | ForecastKey.conversions => a.conversions
  | ForecastKey.clicks => a.clicks

def forecastLabel : ForecastKey → String
  | ForecastKey.spend => "Spend"
  | ForecastKey.conversions => "Conversions"
  | ForecastKey.clicks => "Clicks"

/-- The per-metric body of `generateForecasts`: OLS fit over the
date-aggregated series, R², current-month run rate and the 30-step floored
projection. -/
def forecastOne (clock : MonthClock) (dates : List Nat) (valueAt : Nat → DateAgg)
    (k : ForecastKey) : Forecast :=
  let values := dates.map fun d => forecastValue k (valueAt d)
  let n := values.length
  let xMean : ℚ := ((n : ℚ) - 1) / 2
  let yMean : ℚ := values.sum / n
  let numer := (values.enum.map fun p => ((p.1 : ℚ) - xMean) * (p.2 - yMean)).sum
  let denom := (values.enum.map fun p => ((p.1 : ℚ) - xMean) ^ 2).sum
  let slope := if denom ≠ 0 then numer / denom else 0
  let intercept := yMean - slope * xMean
  let ssRes := (values.enum.map fun p => (p.2 - (intercept + slope * (p.1 : ℚ))) ^ 2).sum
  let ssTot := (values.map fun v => (v - yMean) ^ 2).sum
  let rSquared : ℚ := if 0 < ssTot then 1 - ssRes / ssTot else 0
  let currentPeriodValues :=
    (dates.filter fun d => clock.startOfMonth ≤ d).map fun d => forecastValue k (valueAt d)
  let currentPeriodActual := currentPeriodValues.sum
  let dailyAvg :=
    if 0 < currentPeriodValues.length then currentPeriodActual / currentPeriodValues.length
    else yMean
  let trendPct := if 0 < yMean then slope / yMean * 100 else 0
  { metric := k, metricName := forecastLabel k,
    currentPeriodActual := currentPeriodActual,
    currentPeriodProjected := dailyAvg * clock.daysInMonth,
    nextPeriodForecast :=
      ((List.range 30).map fun i => max 0 (intercept + slope * ((n : ℚ) + i))).sum,
    trend := if 5 < trendPct then TrendKind.up
      else if trendPct < -5 then TrendKind.down else TrendKind.stable,
    trendPct := trendPct,
    confidence := if 7 / 10 < rSquared then ConfidenceKind.high
      else if 2 / 5 < rSquared then ConfidenceKind.medium else ConfidenceKind.low }

def generateForecasts (clock : MonthClock) (ms : List DailyMetric) : List Forecast :=
  if ms.length < 7 then []
  else
    [ForecastKey.spend, ForecastKey.conversions, ForecastKey.clicks].map
      (forecastOne clock (forecastDates ms) (dateValue ms))

/-! ## Pacing calculator -/

/-- One step of the month-to-date spend map: records dated before the first
of the month are skipped, the rest accumulate `spendMicros / 1e6` per
campaign. -/
def monthStep (clock : MonthClock) (acc : List (String × ℚ)) (m : DailyMetric) :
    List (String × ℚ) :=
  if clock.startOfMonth ≤ m.date then
    mapUpd (fun m => m.campaignId) (0 : ℚ) (fun s m => s + m.spendMicros / 1000000) acc m
  else acc

def monthSpendMap (clock : MonthClock) (ms : List DailyMetric) : List (String × ℚ) :=
  ms.foldl (monthStep clock) []

/-- `byCampaign.get(campaign.id) || 0` of the pacing calculator. -/
def monthSpendOf (clock : MonthClock) (ms : List DailyMetric) (cid : String) : ℚ :=
  (((monthSpendMap clock ms).find? fun g => g.1 = cid).map fun g => g.2).getD 0

/-- The per-campaign body of `calculatePacing`.  A null or zero
`dailyBudgetMicros` skips the campaign.  In the source, the over/under
recommendation text divides `|projectedVariance|` by `daysRemaining` WITHOUT
a guard: on the last day of a month (`daysRemaining = 0`) JS renders
`Infinity` into the string; in `ℚ` the same division yields `0`, so that
unguarded site is witnessed separately through the status and the clock. -/
def pacingEntry (clock : MonthClock) (spendOf : String → ℚ) (c : Campaign) :
    Option PacingStatus :=
  let dailyBudget := (c.dailyBudgetMicros.getD 0) / 1000000
  if dailyBudget = 0 then none
  else
    let periodBudget := dailyBudget * clock.daysInMonth
    let spentToDate := spendOf c.id
    let expectedSpend := ((clock.daysElapsed : ℚ) / clock.daysInMonth) * periodBudget
    let pacingStatus :=
      if 0 < expectedSpend then
        if 11 / 10 < spentToDate / expectedSpend then PacingState.overspending
        else if spentToDate / expectedSpend < 9 / 10 then PacingState.underspending
        else PacingState.on_track
      else PacingState.on_track
    let daysRemaining : ℚ := (clock.daysInMonth : ℚ) - clock.daysElapsed
    let dailyAvg := if 0 < clock.daysElapsed then spentToDate / (clock.daysElapsed : ℚ) else 0
    let projectedSpend := spentToDate + dailyAvg * daysRemaining
    let projectedVariance := projectedSpend - periodBudget
    some { campaignId := c.id, campaignName := c.name, provider := c.provider,
           periodBudget := periodBudget, spentToDate := spentToDate,
           pacingStatus := pacingStatus, projectedSpend := projectedSpend,
           projectedVariance := projectedVariance,
           recommendation :=
             if pacingStatus = PacingState.on_track then "Budget pacing is healthy"
             else if pacingStatus = PacingState.overspending then
               "Reduce daily spend by $" ++ toFixedQ 2 (|projectedVariance| / daysRemaining) ++
                 " to stay on budget"
             else
               "Opportunity to increase spend by $" ++
                 toFixedQ 2 (|projectedVariance| / daysRemaining) ++ "/day" }

/-- The pacing comparator `|b.projectedVariance| - |a.projectedVariance| ≤ 0`. -/
def pacLE (a b : PacingStatus) : Prop :=
  |b.projectedVariance| - |a.projectedVariance| ≤ 0

instance : DecidableRel pacLE :=
  fun a b => inferInstanceAs (Decidable (|b.projectedVariance| - |a.projectedVariance| ≤ 0))

def calculatePacing (clock : MonthClock) (cs : List Campaign) (ms : List DailyMetric) :
    List PacingStatus :=
  List.insertionSort pacLE (cs.filterMap (pacingEntry clock (monthSpendOf clock ms)))

/-! ## Health scorer -/

def calculateHealthScore (anoms : List Anomaly) (recs : List BudgetRecommendation)
    (pacing : List PacingStatus) : ℚ :=
  let critical := (anoms.filter fun a => a.severity = Severity.critical).length
  let warning := (anoms.filter fun a => a.severity = Severity.warning).length
  let highPriority := (recs.filter fun r => r.priority = Priority.high).length
  let pacingIssues := (pacing.filter fun p => p.pacingStatus ≠ PacingState.on_track).length
  max 0 (min 100 ((100 : ℚ) - critical * 10 - warning * 3 - highPriority * 5 - pacingIssues * 5))

/-! ## Insight narrator -/

def confidenceLabel : ConfidenceKind → String
  | ConfidenceKind.high => "high"
  | ConfidenceKind.medium => "medium"
  | ConfidenceKind.low => "low"

def generateKeyInsights (anoms : List Anomaly) (recs : List BudgetRecommendation)
    (fcs : List Forecast) (pacing : List PacingStatus) : List String :=
  let critical := anoms.filter fun a => a.severity = Severity.critical
  let anomalyLines : List String :=
    match critical with
    | [] => []
    | c :: _ =>
      [Nat.repr critical.length ++ " critical performance anomalies detected",
       "  → " ++ c.message]
  let increases := recs.filter fun r => 0 < r.changePct
  let decreases := recs.filter fun r => r.changePct < 0
  let incLines : List String :=
    if 0 < increases.length then
      ["Recommended budget increase: $" ++
        toFixedQ 0 ((increases.map fun r => r.recommendedBudget - r.currentBudget).sum) ++
        "/day across " ++ Nat.repr increases.length ++ " campaigns"]
    else []
  let decLines : List String :=
    if 0 < decreases.length then
      ["Recommended budget decrease: $" ++
        toFixedQ 0 |(decreases.map fun r => r.recommendedBudget - r.currentBudget).sum| ++
        "/day across " ++ Nat.repr decreases.length ++ " campaigns"]
    else []
  let spendLines : List String :=
    match fcs.find? fun f => f.metric = ForecastKey.spend with
    | some f =>
      if f.trend ≠ TrendKind.stable then
        ["Spend is " ++ (if f.trend = TrendKind.up then "increasing" else "decreasing") ++
          " " ++ toFixedQ 1 |f.trendPct| ++ "% daily"]
      else []
    | none => []
  let convLines : List String :=
    match fcs.find? fun f => f.metric = ForecastKey.conversions with
    | some f =>
      ["Projected " ++ toFixedQ 0 f.nextPeriodForecast ++ " conversions next month (" ++
        confidenceLabel f.confidence ++ " confidence)"]
    | none => []
  let overspending := pacing.filter fun p => p.pacingStatus = PacingState.overspending
  let underspending := pacing.filter fun p => p.pacingStatus = PacingState.underspending
  let overLines : List String :=
    if 0 < overspending.length then
      [Nat.repr overspending.length ++ " campaigns projected to overspend by $" ++
        toFixedQ 0 ((overspending.map fun p => p.projectedVariance).sum)]
    else []
  let underLines : List String :=
    if 0 < underspending.length then
      ["$" ++ toFixedQ 0 |(underspending.map fun p => p.projectedVariance).sum| ++
        " unspent budget opportunity across " ++ Nat.repr underspending.length ++ " campaigns"]
    else []
  (anomalyLines ++ incLines ++ decLines ++ spendLines ++ convLines ++
    overLines ++ underLines).take 8

/-! ## Report assembler -/

/-- The route handler's composition: all analytics on the full data, counts
over the full anomaly set, top-10 slices of anomalies, recommendations and
pacing in the response. -/
def computeInsights (clock : MonthClock) (cs : List Campaign) (ms : List DailyMetric) :
    InsightsReport :=
  let anomalies := detectAnomalies ms
  let budgetRecommendations := generateBudgetRecommendations cs ms
  let forecasts := generateForecasts clock ms
  let pacing := calculatePacing clock cs ms
  { healthScore := calculateHealthScore anomalies budgetRecommendations pacing,
    keyInsights := generateKeyInsights anomalies budgetRecommendations forecasts pacing,
    anomalies := { total := anomalies.length,
                   critical := (anomalies.filter fun a => a.severity = Severity.critical).length,
                   warning := (anomalies.filter fun a => a.severity = Severity.warning).length,
                   items := anomalies.take 10 },
    budgetRecommendations := budgetRecommendations.take 10,
    forecasts := forecasts,
    pacing := pacing.take 10 }

/-! ## Reference definitions for the anomaly statements

Named views of the per-campaign pipeline (the same expressions
`campaignAnomalies` evaluates, applied to one campaign's records). -/

/-- One campaign's records of the window, sorted by date. -/
def campaignSeries (ms : List DailyMetric) (c : String) : List DailyMetric :=
  seriesSort (ms.filter fun m => m.campaignId = c)

/-- One campaign's historical window (everything but the most recent record,
capped to the last 30 records). -/
def campaignHist (ms : List DailyMetric) (c : String) : List DailyMetric :=
  seriesHist (ms.filter fun m => m.campaignId = c)

/-- The positive-filtered historical sample of one campaign/metric. -/
def sampleValues (ms : List DailyMetric) (c : String) (k : MetricKey) : List ℚ :=
  posValues k (campaignHist ms c)

def sampleMean (ms : List DailyMetric) (c : String) (k : MetricKey) : ℚ :=
  listMean (sampleValues ms c k)

def sampleVariance (ms : List DailyMetric) (c : String) (k : MetricKey) : ℚ :=
  listVariance (sampleValues ms c k)

/-- The most recent day's derived value of one campaign/metric. -/
def currentValue (ms : List DailyMetric) (c : String) (k : MetricKey) : ℚ :=
  metricValue k ((campaignSeries ms c).getLastD emptyMetric)

/-- The anomaly `detectAnomalies` emits for campaign `c` and metric `k` when
the detection test fires. -/
def theAnomaly (ms : List DailyMetric) (c : String) (k : MetricKey) : Anomaly :=
  mkAnomaly c ((campaignSeries ms c).headD emptyMetric).campaignName
    ((campaignSeries ms c).headD emptyMetric).provider k (currentValue ms c k)
    (sampleMean ms c k) (sampleVariance ms c k)

/-- Aggregate window spend of one campaign, in currency units. -/
def aggSpend (ms : List DailyMetric) (cid : String) : ℚ :=
  ((ms.filter fun m => m.campaignId = cid).map fun m => m.spendMicros / 1000000).sum

def aggConversions (ms : List DailyMetric) (cid : String) : ℚ :=
  ((ms.filter fun m => m.campaignId = cid).map fun m => m.conversions).sum

def aggConversionValue (ms : List DailyMetric) (cid : String) : ℚ :=
  ((ms.filter fun m => m.campaignId = cid).map fun m => m.conversionValue).sum

/-! ## Concrete inputs used by the witnesses and counterexamples -/

/-- A daily record with the given spend and no impressions, clicks or
conversions. -/
def mkDay (cid cname : String) (d : Nat) (sm : ℚ) : DailyMetric :=
  { campaignId := cid, campaignName := cname, provider := "google", date := d,
    impressions := 0, clicks := 0, spendMicros := sm, conversions := 0,
    conversionValue := 0 }

/-- Seven daily records of one campaign: a non-constant positive history of
six days followed by a large spike.  The history has six positive values,
mean 7/6 and a non-zero variance, and the spike is far beyond 2σ, yet the
detector skips the campaign (only 6 < 7 historical records remain after the
most recent day is set aside). -/
def c1ms : List DailyMetric :=
  [mkDay "a" "A" 1 1000000, mkDay "a" "A" 2 1000000, mkDay "a" "A" 3 1000000,
   mkDay "a" "A" 4 1000000, mkDay "a" "A" 5 1000000, mkDay "a" "A" 6 2000000,
   mkDay "a" "A" 7 100000000]

/-- Eight daily records of campaign `a`: non-constant positive 7-day history
then a large spike on day 8 — enough records for the detector to fire. -/
def spikeA : List DailyMetric :=
  [mkDay "a" "A" 1 1000000, mkDay "a" "A" 2 1000000, mkDay "a" "A" 3 1000000,
   mkDay "a" "A" 4 1000000, mkDay "a" "A" 5 1000000, mkDay "a" "A" 6 1000000,
   mkDay "a" "A" 7 2000000, mkDay "a" "A" 8 100000000]

/-- The same eight records for campaign `b`: its anomaly ties with campaign
`a`'s on (severity, |deviationPct|). -/
def spikeB : List DailyMetric :=
  spikeA.map fun m => { m with campaignId := "b", campaignName := "B" }

def c9clock : MonthClock := ⟨1, 30, 15⟩

/-- Campaign without a daily budget but with window spend 10 ≥ 10. -/
def budA : Campaign := ⟨"a", "A", "google", none⟩

def budB : Campaign := ⟨"b", "B", "google", some 1000000⟩

/-- Like `budA` but with a budget, for the recommendation examples. -/
def budA' : Campaign := ⟨"a", "A", "google", some 1000000⟩

/-- Seven records over two campaigns: `a` spends 10 with one conversion and
no conversion value (ROAS 0), `b` spends 10 with one conversion worth 100
(ROAS 10). -/
def budMs : List DailyMetric :=
  [{ mkDay "a" "A" 1 2500000 with conversions := 1 }, mkDay "a" "A" 2 2500000,
   mkDay "a" "A" 3 2500000, mkDay "a" "A" 4 2500000,
   { mkDay "b" "B" 1 10000000 with conversions := 1, conversionValue := 100 },
   mkDay "b" "B" 2 0, mkDay "b" "B" 3 0]

/-- `budMs` squashed onto a single calendar day: seven raw records but only
one distinct date. -/
def oneDayMs : List DailyMetric := budMs.map fun m => { m with date := 5 }

def dummyRec : BudgetRecommendation := ⟨"", "", "", 0, 0, 0, "", Priority.low⟩

/-- The first recommendation the budget engine emits for
`[budA', budB]` on `budMs`. -/
def c6rec : BudgetRecommendation :=
  (generateBudgetRecommendations [budA', budB] budMs).headD dummyRec

/-- The last day of a 30-day month. -/
def lastDayClock : MonthClock := ⟨1, 30, 30⟩

def paceC : Campaign := ⟨"p", "P", "google", some 1000000⟩

/-- One month-to-date record spending 40 currency units against a period
budget of 30: pacing ratio 4/3 > 1.1. -/
def paceMs : List DailyMetric := [mkDay "p" "P" 5 40000000]

def c7clock : MonthClock := ⟨1, 30, 15⟩

def c7c : Campaign := ⟨"q", "Q", "google", some 100000000⟩

/-- Spec §8 pacing scenario: $100/day budget, day 15 of a 30-day month,
$2000 spent to date. -/
def c7ms : List DailyMetric := [mkDay "q" "Q" 5 2000000000]

/- The kernel evaluates rational arithmetic fine, but `Rat.inv`, `Rat.mul`,
`Rat.add`, `Rat.sub` and `Rat.ofScientific` are marked irreducible, which
stops `decide` from evaluating concrete inputs; restore the default
reducibility for them. -/
attribute [local semireducible] Rat.inv Rat.mul Rat.add Rat.sub Rat.ofScientific

/-! ## Generic lemmas about the association-list maps -/

theorem find?_map_fst {κ υ : Type} [DecidableEq κ] (c : κ) (u : κ × υ → κ × υ)
    (hu : ∀ g, (u g).1 = g.1) :
    ∀ l : List (κ × υ), (l.map u).find? (fun g => g.1 = c) = (l.find? (fun g => g.1 = c)).map u
  | [] => rfl
  | g :: l => by
    by_cases h : g.1 = c
    · rw [List.map_cons, List.find?_cons_of_pos, List.find?_cons_of_pos] <;>
        simp [h, hu]
    · rw [List.map_cons, List.find?_cons_of_neg, List.find?_cons_of_neg,
        find?_map_fst c u hu l] <;> simp [h, hu]

theorem mapUpd_find? {α κ υ : Type} [DecidableEq κ] (key : α → κ) (z : υ)
    (comb : υ → α → υ) (c : κ) (acc : List (κ × υ)) (x : α) :
    (mapUpd key z comb acc x).find? (fun g => g.1 = c) =
      if key x = c then
        match acc.find? (fun g => g.1 = c) with
        | some g => some (g.1, comb g.2 x)
        | none => some (c, comb z x)
      else acc.find? (fun g => g.1 = c) := by
  have hufst : ∀ g : κ × υ, ((if g.1 = key x then (g.1, comb g.2 x) else g) : κ × υ).1 = g.1 :=
    fun g => by by_cases hx : g.1 = key x <;> simp [hx]
  by_cases hk : key x = c
  · rw [if_pos hk]
    cases h : acc.find? (fun g => g.1 = c) with
    | some g =>
      have hany : acc.any (fun g => g.1 = key x) = true := by
        refine List.any_eq_true.2 ⟨g, List.mem_of_find?_eq_some h, ?_⟩
        have hg1 : g.1 = c := by simpa using List.find?_some h
        simp [hg1, hk]
      have hg1 : g.1 = c := by simpa using List.find?_some h
      rw [mapUpd, if_pos hany,
        find?_map_fst c (fun g => if g.1 = key x then (g.1, comb g.2 x) else g) hufst, h]
      simp [hg1, hk]
    | none =>
      have hany : acc.any (fun g => g.1 = key x) = false := by
        rw [List.any_eq_false]
        intro g hg
        have hne := List.find?_eq_none.1 h g hg
        simp only [decide_eq_true_eq] at hne ⊢
        rw [hk]
        exact hne
      rw [mapUpd, if_neg (by simp [hany]), List.find?_append, h, Option.none_or]
      simp [List.find?, hk]
  · rw [if_neg hk, mapUpd]
    by_cases hany : acc.any (fun g => g.1 = key x) = true
    · rw [if_pos hany,
        find?_map_fst c (fun g => if g.1 = key x then (g.1, comb g.2 x) else g) hufst]
      cases h : acc.find? (fun g => g.1 = c) with
      | none => simp
      | some g =>
        have hg1 : g.1 = c := by simpa using List.find?_some h
        have hne : ¬ g.1 = key x := fun hx => hk (by rw [← hx]; exact hg1)
        simp [hne]
    · rw [if_neg hany, List.find?_append]
      have h1 : List.find? (fun g => g.1 = c) [(key x, comb z x)] = none := by
        simp [List.find?, hk]
      rw [h1]
      cases h : acc.find? (fun g => g.1 = c) <;> simp

theorem foldl_mapUpd_find? {α κ υ : Type} [DecidableEq κ] (key : α → κ) (z : υ)
    (comb : υ → α → υ) (c : κ) :
    ∀ (xs : List α) (acc : List (κ × υ)),
      (xs.foldl (mapUpd key z comb) acc).find? (fun g => g.1 = c) =
        match acc.find? (fun g => g.1 = c) with
        | some g => some (g.1, (xs.filter fun x => key x = c).foldl comb g.2)
        | none =>
          if (xs.filter fun x => key x = c).isEmpty then none
          else some (c, (xs.filter fun x => key x = c).foldl comb z)
  | [], acc => by
    cases h : acc.find? (fun g => g.1 = c) with
    | none => simp [h]
    | some g => simp [h]
  | x :: xs, acc => by
    rw [List.foldl_cons, foldl_mapUpd_find? key z comb c xs (mapUpd key z comb acc x),
      mapUpd_find?]
    by_cases hk : key x = c
    · rw [if_pos hk, List.filter_cons_of_pos (by simpa using hk)]
      cases h : acc.find? (fun g => g.1 = c) with
      | some g => simp [List.foldl_cons]
      | none => simp [List.foldl_cons, hk]
    · rw [if_neg hk, List.filter_cons_of_neg (by simpa using hk)]

theorem mapUpd_keys {α κ υ : Type} [DecidableEq κ] (key : α → κ) (z : υ)
    (comb : υ → α → υ) (acc : List (κ × υ)) (x : α) :
    (mapUpd key z comb acc x).map Prod.fst =
      if acc.any (fun g => g.1 = key x) then acc.map Prod.fst
      else acc.map Prod.fst ++ [key x] := by
  rw [mapUpd]
  by_cases hany : acc.any (fun g => g.1 = key x) = true
  · rw [if_pos hany, if_pos hany, List.map_map]
    refine List.map_congr_left fun g _ => ?_
    by_cases hx : g.1 = key x <;> simp [hx]
  · rw [if_neg hany, if_neg hany]
    simp

theorem foldl_mapUpd_keys_nodup {α κ υ : Type} [DecidableEq κ] (key : α → κ) (z : υ)
    (comb : υ → α → υ) :
    ∀ (xs : List α) (acc : List (κ × υ)), (acc.map Prod.fst).Nodup →
      ((xs.foldl (mapUpd key z comb) acc).map Prod.fst).Nodup
  | [], _, h => h
  | x :: xs, acc, h => by
    rw [List.foldl_cons]
    refine foldl_mapUpd_keys_nodup key z comb xs _ ?_
    rw [mapUpd_keys]
    by_cases hany : acc.any (fun g => g.1 = key x) = true
    · rwa [if_pos hany]
    · rw [if_neg hany]
      have hnot : key x ∉ acc.map Prod.fst := by
        intro hmem
        rcases List.mem_map.1 hmem with ⟨g, hg, hfst⟩
        exact hany (List.any_eq_true.2 ⟨g, hg, by simp [hfst]⟩)
      simp [List.nodup_append, h, hnot]

theorem foldl_mapUpd_keys_mem {α κ υ : Type} [DecidableEq κ] (key : α → κ) (z : υ)
    (comb : υ → α → υ) (c : κ) :
    ∀ (xs : List α) (acc : List (κ × υ)),
      (c ∈ (xs.foldl (mapUpd key z comb) acc).map Prod.fst ↔
        c ∈ acc.map Prod.fst ∨ ∃ x ∈ xs, key x = c)
  | [], acc => by simp
  | x :: xs, acc => by
    rw [List.foldl_cons, foldl_mapUpd_keys_mem key z comb c xs _, mapUpd_keys]
    by_cases hany : acc.any (fun g => g.1 = key x) = true
    · rw [if_pos hany]
      rcases List.any_eq_true.1 hany with ⟨g, hg, hgx⟩
      have hkeymem : key x ∈ acc.map Prod.fst :=
        List.mem_map.2 ⟨g, hg, by simpa using hgx⟩
      constructor
      · rintro (h | ⟨y, hy, hyc⟩)
        · exact Or.inl h
        · exact Or.inr ⟨y, List.mem_cons_of_mem x hy, hyc⟩
      · rintro (h | ⟨y, hy, hyc⟩)
        · exact Or.inl h
        · rcases List.mem_cons.1 hy with rfl | hy'
          · exact Or.inl (hyc ▸ hkeymem)
          · exact Or.inr ⟨y, hy', hyc⟩
    · rw [if_neg hany]
      constructor
      · rintro (h | ⟨y, hy, hyc⟩)
        · rcases List.mem_append.1 h with h' | h'
          · exact Or.inl h'
          · have hcx : c = key x := by simpa using h'
            exact Or.inr ⟨x, List.mem_cons_self x xs, hcx.symm⟩
        · exact Or.inr ⟨y, List.mem_cons_of_mem x hy, hyc⟩
      · rintro (h | ⟨y, hy, hyc⟩)
        · exact Or.inl (List.mem_append_left _ h)
        · rcases List.mem_cons.1 hy with rfl | hy'
          · exact Or.inl (List.mem_append_right _ (by simpa using hyc.symm))
          · exact Or.inr ⟨y, hy', hyc⟩

theorem foldl_ite_filter {β γ : Type} (p : β → Prop) [DecidablePred p] (f : γ → β → γ) :
    ∀ (xs : List β) (acc : γ),
      xs.foldl (fun a x => if p x then f a x else a) acc =
        (xs.filter fun x => p x).foldl f acc
  | [], _ => rfl
  | x :: xs, acc => by
    by_cases h : p x <;>
      simp [List.filter_cons, h, foldl_ite_filter p f xs]

theorem foldl_push_eq {β : Type} : ∀ (xs acc : List β),
    xs.foldl (fun l m => l ++ [m]) acc = acc ++ xs
  | [], acc => by simp
  | x :: xs, acc => by
    rw [List.foldl_cons, foldl_push_eq xs]
    simp

theorem foldl_add_eq {β : Type} (f : β → ℚ) : ∀ (xs : List β) (a : ℚ),
    xs.foldl (fun s x => s + f x) a = a + (xs.map f).sum
  | [], a => by simp
  | x :: xs, a => by
    rw [List.foldl_cons, foldl_add_eq f xs]
    simp [add_assoc]

theorem foldl_aggStep_eq : ∀ (xs : List DailyMetric) (a : CampaignAgg),
    xs.foldl aggStep a =
      ⟨a.spend + (xs.map fun m => m.spendMicros / 1000000).sum,
       a.conversions + (xs.map fun m => m.conversions).sum,
       a.conversionValue + (xs.map fun m => m.conversionValue).sum⟩
  | [], a => by simp
  | x :: xs, a => by
    rw [List.foldl_cons, foldl_aggStep_eq xs]
    simp [aggStep, add_assoc]

theorem foldl_dateStep_eq : ∀ (xs : List DailyMetric) (a : DateAgg),
    xs.foldl dateStep a =
      ⟨a.spend + (xs.map fun m => m.spendMicros / 1000000).sum,
       a.conversions + (xs.map fun m => m.conversions).sum,
       a.clicks + (xs.map fun m => m.clicks).sum,
       a.impressions + (xs.map fun m => m.impressions).sum⟩
  | [], a => by simp
  | x :: xs, a => by
    rw [List.foldl_cons, foldl_dateStep_eq xs]
    simp [dateStep, add_assoc]

theorem find?_self_of_keys_nodup {κ υ : Type} [DecidableEq κ] :
    ∀ {l : List (κ × υ)} {g : κ × υ}, g ∈ l → (l.map Prod.fst).Nodup →
      l.find? (fun g' => g'.1 = g.1) = some g
  | h :: t, g, hg, hnd => by
    rcases List.mem_cons.1 hg with rfl | hgt
    · exact List.find?_cons_of_pos _ (by simp)
    · have hne : ¬ h.1 = g.1 := by
        have : g.1 ∈ t.map Prod.fst := List.mem_map.2 ⟨g, hgt, rfl⟩
        intro he
        rw [List.map_cons, List.nodup_cons] at hnd
        exact hnd.1 (he ▸ this)
      rw [List.find?_cons_of_neg _ (by simpa using hne)]
      exact find?_self_of_keys_nodup hgt (by
        rw [List.map_cons, List.nodup_cons] at hnd
        exact hnd.2)

theorem sorted_perm_nodup_eq {β : Type} (keyf : β → Nat) :
    ∀ {l₁ l₂ : List β}, l₁.Perm l₂ →
      l₁.Pairwise (fun a b => keyf a ≤ keyf b) →
      l₂.Pairwise (fun a b => keyf a ≤ keyf b) →
      (l₁.map keyf).Nodup → l₁ = l₂
  | [], l₂, hp, _, _, _ => (hp.symm.eq_nil).symm ▸ rfl
  | a :: t₁, l₂, hp, hs₁, hs₂, hnd => by
    cases l₂ with
    | nil => exact absurd hp.eq_nil (by simp)
    | cons b t₂ =>
      have hab : a = b := by
        have hma : a ∈ b :: t₂ := hp.mem_iff.1 (List.mem_cons_self a t₁)
        have hmb : b ∈ a :: t₁ := hp.symm.mem_iff.1 (List.mem_cons_self b t₂)
        rcases List.mem_cons.1 hma with h | hat₂
        · exact h
        rcases List.mem_cons.1 hmb with h | hbt₁
        · exact h.symm
        have h₁ : keyf a ≤ keyf b := (List.pairwise_cons.1 hs₁).1 b hbt₁
        have h₂ : keyf b ≤ keyf a := (List.pairwise_cons.1 hs₂).1 a hat₂
        have hkey : keyf a = keyf b := le_antisymm h₁ h₂
        rw [List.map_cons, List.nodup_cons] at hnd
        exact absurd (List.mem_map.2 ⟨b, hbt₁, hkey.symm⟩) hnd.1
      subst hab
      have ht : t₁ = t₂ :=
        sorted_perm_nodup_eq keyf hp.cons_inv (List.pairwise_cons.1 hs₁).2
          (List.pairwise_cons.1 hs₂).2
          (by rw [List.map_cons, List.nodup_cons] at hnd; exact hnd.2)
      rw [ht]

/-! ## Characterizations of the four maps -/

theorem groupByCampaign_find? (ms : List DailyMetric) (c : String) :
    (groupByCampaign ms).find? (fun g => g.1 = c) =
      if (ms.filter fun m => m.campaignId = c).isEmpty then none
      else some (c, ms.filter fun m => m.campaignId = c) := by
  rw [groupByCampaign, mapFold, foldl_mapUpd_find?]
  simp only [List.find?_nil]
  by_cases he : (ms.filter fun m => m.campaignId = c).isEmpty
  · simp [he]
  · simp only [he, if_false, Bool.false_eq_true]
    rw [foldl_push_eq]
    simp

theorem groupByCampaign_keys_nodup (ms : List DailyMetric) :
    ((groupByCampaign ms).map Prod.fst).Nodup :=
  foldl_mapUpd_keys_nodup _ _ _ ms [] (by simp)

theorem mem_groupByCampaign_eq {ms : List DailyMetric} {g : String × List DailyMetric}
    (hg : g ∈ groupByCampaign ms) :
    g.2 = ms.filter fun m => m.campaignId = g.1 := by
  have h1 := find?_self_of_keys_nodup hg (groupByCampaign_keys_nodup ms)
  rw [groupByCampaign_find?] at h1
  by_cases he : (ms.filter fun m => m.campaignId = g.1).isEmpty
  · rw [if_pos he] at h1
    exact absurd h1 (by simp)
  · rw [if_neg he] at h1
    have h2 := Option.some.inj h1
    exact congrArg Prod.snd h2.symm

theorem campaignAgg_eq (ms : List DailyMetric) (cid : String) :
    campaignAgg ms cid =
      if (ms.filter fun m => m.campaignId = cid).isEmpty then none
      else some ⟨aggSpend ms cid, aggConversions ms cid, aggConversionValue ms cid⟩ := by
  rw [campaignAgg, mapFind, mapFold, foldl_mapUpd_find?]
  simp only [List.find?_nil]
  by_cases he : (ms.filter fun m => m.campaignId = cid).isEmpty
  · simp [he]
  · simp only [he, if_false, Bool.false_eq_true]
    rw [foldl_aggStep_eq]
    simp [aggSpend, aggConversions, aggConversionValue, zeroAgg]

theorem dateValue_eq (ms : List DailyMetric) (d : Nat) :
    dateValue ms d =
      ⟨((ms.filter fun m => m.date = d).map fun m => m.spendMicros / 1000000).sum,
       ((ms.filter fun m => m.date = d).map fun m => m.conversions).sum,
       ((ms.filter fun m => m.date = d).map fun m => m.clicks).sum,
       ((ms.filter fun m => m.date = d).map fun m => m.impressions).sum⟩ := by
  rw [dateValue, mapFind, mapFold, foldl_mapUpd_find?]
  simp only [List.find?_nil]
  by_cases he : (ms.filter fun m => m.date = d).isEmpty
  · rw [List.isEmpty_iff] at he
    simp [he, List.isEmpty_iff, zeroDateAgg]
  · simp only [he, if_false, Bool.false_eq_true]
    rw [foldl_dateStep_eq]
    simp [zeroDateAgg]

theorem monthSpendOf_eq (clock : MonthClock) (ms : List DailyMetric) (cid : String) :
    monthSpendOf clock ms cid =
      ((ms.filter fun m => m.campaignId = cid ∧ clock.startOfMonth ≤ m.date).map
        fun m => m.spendMicros / 1000000).sum := by
  have h1 : monthSpendMap clock ms =
      (ms.filter fun m => clock.startOfMonth ≤ m.date).foldl
        (mapUpd (fun m => m.campaignId) (0 : ℚ) fun s m => s + m.spendMicros / 1000000) [] := by
    rw [monthSpendMap,
      ← foldl_ite_filter (fun m : DailyMetric => clock.startOfMonth ≤ m.date)]
    rfl
  have h2 : (ms.filter fun m => clock.startOfMonth ≤ m.date).filter
      (fun m => m.campaignId = cid) =
      ms.filter fun m => m.campaignId = cid ∧ clock.startOfMonth ≤ m.date := by
    rw [List.filter_filter]
    exact List.filter_congr fun m _ => by
      by_cases h : m.campaignId = cid <;> by_cases h' : clock.startOfMonth ≤ m.date <;>
        simp [h, h']
  rw [monthSpendOf, h1,
    show ((ms.filter fun m => clock.startOfMonth ≤ m.date).foldl
        (mapUpd (fun m => m.campaignId) (0 : ℚ) fun s m => s + m.spendMicros / 1000000) []) =
      mapFold (fun m => m.campaignId) (0 : ℚ)
        (fun s m => s + m.spendMicros / 1000000)
        (ms.filter fun m => clock.startOfMonth ≤ m.date) from rfl,
    mapFold, foldl_mapUpd_find?]
  simp only [List.find?_nil]
  rw [h2]
  by_cases he : (ms.filter fun m => m.campaignId = cid ∧ clock.startOfMonth ≤ m.date).isEmpty
  · rw [if_pos he]
    rw [List.isEmpty_iff] at he
    simp only [Bool.decide_and] at he
    simp [he]
  · rw [if_neg he]
    rw [foldl_add_eq]
    simp only [Bool.decide_and]
    simp

/-! ## Anomaly pipeline structure lemmas -/

theorem checkMetric_eq_some {cid cname prov : String} {recent : DailyMetric}
    {hist : List DailyMetric} {k : MetricKey} {a : Anomaly}
    (h : checkMetric cid cname prov recent hist k = some a) :
    a = mkAnomaly cid cname prov k (metricValue k recent)
      (listMean (posValues k hist)) (listVariance (posValues k hist)) := by
  simp only [checkMetric] at h
  split_ifs at h
  exact (Option.some.inj h).symm

theorem mkAnomaly_campaignId (cid cname prov : String) (k : MetricKey)
    (current mean variance : ℚ) :
    (mkAnomaly cid cname prov k current mean variance).campaignId = cid := rfl

theorem mkAnomaly_metric (cid cname prov : String) (k : MetricKey)
    (current mean variance : ℚ) :
    (mkAnomaly cid cname prov k current mean variance).metric = k := rfl

theorem campaignAnomalies_campaignId {g : String × List DailyMetric} {a : Anomaly}
    (ha : a ∈ campaignAnomalies g) : a.campaignId = g.1 := by
  rw [campaignAnomalies] at ha
  split_ifs at ha with h1 h2
  · exact absurd ha (List.not_mem_nil a)
  · exact absurd ha (List.not_mem_nil a)
  · rcases List.mem_filterMap.1 ha with ⟨k, _, hk⟩
    rw [checkMetric_eq_some hk]
    rfl

theorem campaignAnomalies_metric_mem {g : String × List DailyMetric} {a : Anomaly}
    (ha : a ∈ campaignAnomalies g) :
    ∃ k, a.metric = k ∧
      checkMetric g.1 ((seriesSort g.2).headD emptyMetric).campaignName
        ((seriesSort g.2).headD emptyMetric).provider
        ((seriesSort g.2).getLastD emptyMetric) (seriesHist g.2) k = some a := by
  rw [campaignAnomalies] at ha
  split_ifs at ha with h1 h2
  · exact absurd ha (List.not_mem_nil a)
  · exact absurd ha (List.not_mem_nil a)
  · rcases List.mem_filterMap.1 ha with ⟨k, _, hk⟩
    refine ⟨k, ?_, hk⟩
    rw [checkMetric_eq_some hk]
    rfl

theorem flatten_map_single {κ υ β : Type} [DecidableEq κ] (c : κ) (F : κ × υ → List β) :
    ∀ (L : List (κ × υ)), (L.map Prod.fst).Nodup →
      (L.map fun g => if g.1 = c then F g else []).flatten =
        match L.find? (fun g => g.1 = c) with
        | some g => F g
        | none => []
  | [], _ => rfl
  | h :: t, hnd => by
    rw [List.map_cons, List.nodup_cons] at hnd
    by_cases hc : h.1 = c
    · rw [List.map_cons, if_pos hc, List.flatten_cons,
        List.find?_cons_of_pos _ (by simpa using hc)]
      have ht : (t.map fun g => if g.1 = c then F g else []).flatten = [] := by
        rw [List.flatten_eq_nil_iff]
        intro l hl
        rcases List.mem_map.1 hl with ⟨g, hg, hfg⟩
        have hgne : ¬ g.1 = c := by
          intro he
          exact hnd.1 (List.mem_map.2 ⟨g, hg, he.trans hc.symm⟩)
        rw [if_neg hgne] at hfg
        exact hfg.symm
      rw [ht, List.append_nil]
    · rw [List.map_cons, if_neg hc, List.flatten_cons, List.nil_append,
        List.find?_cons_of_neg _ (by simpa using hc)]
      exact flatten_map_single c F t hnd.2

theorem flagged_filter_campaign (ms : List DailyMetric) (c : String) :
    (flaggedAnomalies ms).filter (fun a => a.campaignId = c) =
      if ms.length < 7 then []
      else campaignAnomalies (c, ms.filter fun m => m.campaignId = c) := by
  rw [flaggedAnomalies]
  by_cases h7 : ms.length < 7
  · simp [h7]
  · rw [if_neg h7, if_neg h7, List.filter_flatten, List.map_map]
    have hcong : (groupByCampaign ms).map
        ((List.filter fun a => a.campaignId = c) ∘ campaignAnomalies) =
        (groupByCampaign ms).map fun g => if g.1 = c then campaignAnomalies g else [] := by
      refine List.map_congr_left fun g hg => ?_
      simp only [Function.comp_apply]
      by_cases hc : g.1 = c
      · rw [if_pos hc]
        refine List.filter_eq_self.2 fun a ha => ?_
        have := campaignAnomalies_campaignId ha
        simp [this, hc]
      · rw [if_neg hc]
        rw [List.filter_eq_nil_iff]
        intro a ha
        have := campaignAnomalies_campaignId ha
        simp [this, hc]
    rw [hcong, flatten_map_single c _ _ (groupByCampaign_keys_nodup ms),
      groupByCampaign_find?]
    by_cases he : (ms.filter fun m => m.campaignId = c).isEmpty
    · rw [if_pos he]
      rw [List.isEmpty_iff] at he
      rw [he]
      rw [campaignAnomalies]
      simp
    · rw [if_neg he]

theorem filter_filterMap_metric_nil (f : MetricKey → Option Anomaly)
    (hf : ∀ k' a, f k' = some a → a.metric = k') :
    ∀ (ks : List MetricKey) (k : MetricKey), k ∉ ks →
      ((ks.filterMap f).filter fun a => a.metric = k) = []
  | ks, k, hk => by
    rw [List.filter_eq_nil_iff]
    intro a ha
    rcases List.mem_filterMap.1 ha with ⟨k', hk', hfk'⟩
    have : a.metric = k' := hf k' a hfk'
    simp only [this, decide_eq_true_eq]
    intro he
    exact hk (he ▸ hk')

theorem filter_filterMap_metric (f : MetricKey → Option Anomaly)
    (hf : ∀ k' a, f k' = some a → a.metric = k') :
    ∀ (ks : List MetricKey), ks.Nodup → ∀ k ∈ ks,
      ((ks.filterMap f).filter fun a => a.metric = k) = (f k).toList
  | k' :: ks, hnd, k, hk => by
    rw [List.nodup_cons] at hnd
    rcases List.mem_cons.1 hk with rfl | hks
    · rw [List.filterMap_cons]
      cases h : f k with
      | none =>
        rw [filter_filterMap_metric_nil f hf ks k hnd.1]
        rfl
      | some a =>
        have ham : a.metric = k := hf k a h
        rw [List.filter_cons_of_pos (by simp [ham]),
          filter_filterMap_metric_nil f hf ks k hnd.1]
        rfl
    · rw [List.filterMap_cons]
      have hkne : ¬ k' = k := fun he => hnd.1 (he ▸ hks)
      cases h : f k' with
      | none => exact filter_filterMap_metric f hf ks hnd.2 k hks
      | some a =>
        have ham : a.metric = k' := hf k' a h
        rw [List.filter_cons_of_neg (by simp [ham, hkne])]
        exact filter_filterMap_metric f hf ks hnd.2 k hks

theorem checkMetric_if (cid cname prov : String) (recent : DailyMetric)
    (hist : List DailyMetric) (k : MetricKey) (h5 : 5 ≤ (posValues k hist).length) :
    checkMetric cid cname prov recent hist k =
      if listVariance (posValues k hist) ≠ 0 ∧
          4 * listVariance (posValues k hist) ≤
            (metricValue k recent - listMean (posValues k hist)) ^ 2 then
        some (mkAnomaly cid cname prov k (metricValue k recent)
          (listMean (posValues k hist)) (listVariance (posValues k hist)))
      else none := by
  simp only [checkMetric]
  split_ifs with h1 h2 h3 h4 h5' h6 <;> first
  | rfl
  | omega
  | tauto

/-- Composite: the sorted output of `detectAnomalies`, filtered to one
campaign and one metric, is exactly the optional anomaly of that
campaign/metric check (provided the campaign has at least 8 records). -/
theorem detect_filter_campaign_metric (ms : List DailyMetric) (c : String) (k : MetricKey)
    (h8 : 8 ≤ (ms.filter fun m => m.campaignId = c).length) :
    ((detectAnomalies ms).filter fun a => a.campaignId = c ∧ a.metric = k) =
      (checkMetric c ((campaignSeries ms c).headD emptyMetric).campaignName
        ((campaignSeries ms c).headD emptyMetric).provider
        ((campaignSeries ms c).getLastD emptyMetric) (campaignHist ms c) k).toList := by
  have hlen : ¬ ms.length < 7 := by
    have := List.length_filter_le (fun m => decide (m.campaignId = c)) ms
    omega
  have hflen : ¬ (ms.filter fun m => m.campaignId = c).length < 7 := by omega
  have hhist : ¬ (seriesHist (ms.filter fun m => m.campaignId = c)).length < 7 := by
    rw [seriesHist]
    simp only [List.length_drop, List.length_dropLast, seriesSort,
      List.length_insertionSort]
    omega
  have hsplit : ((detectAnomalies ms).filter fun a => a.campaignId = c ∧ a.metric = k) =
      (((detectAnomalies ms).filter fun a => a.campaignId = c).filter
        fun a => a.metric = k) := by
    rw [List.filter_filter]
    exact List.filter_congr fun a _ => by
      by_cases h1 : a.campaignId = c <;> by_cases h2 : a.metric = k <;> simp [h1, h2]
  rw [hsplit]
  have hperm : (((detectAnomalies ms).filter fun a => a.campaignId = c).filter
      fun a => a.metric = k).Perm
      (((flaggedAnomalies ms).filter fun a => a.campaignId = c).filter
        fun a => a.metric = k) :=
    (((List.perm_insertionSort anomLE (flaggedAnomalies ms)).filter _).filter _)
  have hflag : ((flaggedAnomalies ms).filter fun a => a.campaignId = c) =
      campaignAnomalies (c, ms.filter fun m => m.campaignId = c) := by
    rw [flagged_filter_campaign, if_neg hlen]
  rw [hflag] at hperm
  have hcamp : ((campaignAnomalies (c, ms.filter fun m => m.campaignId = c)).filter
      fun a => a.metric = k) =
      (checkMetric c ((campaignSeries ms c).headD emptyMetric).campaignName
        ((campaignSeries ms c).headD emptyMetric).provider
        ((campaignSeries ms c).getLastD emptyMetric) (campaignHist ms c) k).toList := by
    rw [campaignAnomalies, if_neg hflen, if_neg hhist]
    exact filter_filterMap_metric _
      (fun k' a h => by rw [checkMetric_eq_some h]; rfl)
      [MetricKey.ctr, MetricKey.cpc, MetricKey.cpa, MetricKey.spend] (by decide) k
      (by cases k <;> decide)
  rw [hcamp] at hperm
  cases hop : (checkMetric c ((campaignSeries ms c).headD emptyMetric).campaignName
      ((campaignSeries ms c).headD emptyMetric).provider
      ((campaignSeries ms c).getLastD emptyMetric) (campaignHist ms c) k) with
  | none =>
    rw [hop] at hperm
    exact hperm.eq_nil
  | some a =>
    rw [hop] at hperm
    exact List.perm_singleton.1 hperm

/-! ## Bridges between the squared form and the σ form -/

theorem listVariance_nonneg (vs : List ℚ) : 0 ≤ listVariance vs := by
  rw [listVariance]
  refine div_nonneg (List.sum_nonneg fun x hx => ?_) (by positivity)
  rcases List.mem_map.1 hx with ⟨v, _, rfl⟩
  positivity

theorem kvar_le_iff (t v d : ℚ) (ht : 0 ≤ t) (hv : 0 ≤ v) :
    (t ^ 2 * v ≤ d ^ 2) ↔ ((t : ℝ) * Real.sqrt v ≤ |(d : ℝ)|) := by
  have hvR : (0 : ℝ) ≤ (v : ℝ) := by exact_mod_cast hv
  have htR : (0 : ℝ) ≤ (t : ℝ) := by exact_mod_cast ht
  constructor
  · intro h
    have hR : (t : ℝ) ^ 2 * v ≤ (d : ℝ) ^ 2 := by exact_mod_cast h
    have h1 : Real.sqrt ((t : ℝ) ^ 2 * v) ≤ Real.sqrt ((d : ℝ) ^ 2) := Real.sqrt_le_sqrt hR
    rwa [Real.sqrt_mul (by positivity) _, Real.sqrt_sq htR, Real.sqrt_sq_eq_abs] at h1
  · intro h
    have h1 : ((t : ℝ) * Real.sqrt v) ^ 2 ≤ |(d : ℝ)| ^ 2 :=
      pow_le_pow_left (by positivity) h 2
    rw [mul_pow, Real.sq_sqrt hvR, sq_abs] at h1
    exact_mod_cast h1

theorem sqrt_ne_zero_iff (v : ℚ) (hv : 0 ≤ v) : Real.sqrt (v : ℝ) ≠ 0 ↔ v ≠ 0 := by
  rw [ne_eq, Real.sqrt_eq_zero']
  constructor
  · intro h h0
    exact h (by rw [h0]; norm_num)
  · intro h
    rw [not_le]
    have hlt : (0 : ℚ) < v := lt_of_le_of_ne hv (Ne.symm h)
    exact_mod_cast hlt

/-! ## C10 -/

/-- C10: a campaign whose group holds exactly 7 daily records never produces
an anomaly — after the most recent day is set aside, only 6 historical
records remain, which fails the detector's additional `historical.length < 7`
gate, so at least 8 records per campaign are needed. -/
theorem eight_records_needed (ms : List DailyMetric) (c : String)
    (h7 : (ms.filter fun m => m.campaignId = c).length = 7) :
    ((detectAnomalies ms).filter fun a => a.campaignId = c) = [] := by
  have hperm : ((detectAnomalies ms).filter fun a => a.campaignId = c).Perm
      ((flaggedAnomalies ms).filter fun a => a.campaignId = c) :=
    (List.perm_insertionSort anomLE (flaggedAnomalies ms)).filter _
  have hflag : ((flaggedAnomalies ms).filter fun a => a.campaignId = c) = [] := by
    rw [flagged_filter_campaign]
    by_cases hl : ms.length < 7
    · rw [if_pos hl]
    · rw [if_neg hl, campaignAnomalies]
      have hh : (seriesHist (ms.filter fun m => m.campaignId = c)).length < 7 := by
        rw [seriesHist]
        simp only [List.length_drop, List.length_dropLast, seriesSort,
          List.length_insertionSort]
        omega
      have hl2 : ¬ ((c, ms.filter fun m => m.campaignId = c) :
          String × List DailyMetric).2.length < 7 := by
        show ¬ (ms.filter fun m => m.campaignId = c).length < 7
        omega
      rw [if_neg hl2, if_pos hh]
  rw [hflag] at hperm
  exact hperm.eq_nil

/-- C10 witness: `c1ms` holds exactly 7 records of campaign `a` (with a
non-degenerate history and a huge final spike), and no anomaly mentions
campaign `a`. -/
theorem eight_records_needed_witness :
    ((detectAnomalies c1ms).filter fun a => a.campaignId = "a") = [] :=
  eight_records_needed c1ms "a" (by decide)

/-! ## C1 -/

/-- C1 counterexample: `c1ms` gives campaign `a` 7 daily records, a
positive-filtered spend history of 6 ≥ 5 values with non-zero variance, and a
most recent value beyond 2σ of the mean — the claim then requires an anomaly
— yet `detectAnomalies` emits nothing (8 records are needed, not 7). -/
theorem seven_records_claim_fails :
    (c1ms.filter fun m => m.campaignId = "a").length = 7 ∧
    5 ≤ (sampleValues c1ms "a" MetricKey.spend).length ∧
    sampleVariance c1ms "a" MetricKey.spend ≠ 0 ∧
    4 * sampleVariance c1ms "a" MetricKey.spend ≤
      (currentValue c1ms "a" MetricKey.spend - sampleMean c1ms "a" MetricKey.spend) ^ 2 ∧
    detectAnomalies c1ms = [] := by
  set_option maxRecDepth 8000 in decide

/-- C1 (amended to require 8 records per campaign): for a campaign with at
least 8 records and a metric whose positive-filtered historical sample has at
least 5 values, the report's anomaly list contains an entry for that
campaign/metric exactly when σ ≠ 0 and |current − μ| ≥ 2σ (stated in `ℚ` in
the equivalent squared form, and bridged to the σ form over `ℝ`); the severity
is `critical` exactly when |current − μ| ≥ 3σ, and a constant history (σ = 0)
never yields an anomaly. -/
theorem anomaly_iff_two_sigma (ms : List DailyMetric) (c : String) (k : MetricKey)
    (h8 : 8 ≤ (ms.filter fun m => m.campaignId = c).length)
    (h5 : 5 ≤ (sampleValues ms c k).length) :
    (((detectAnomalies ms).filter fun a => a.campaignId = c ∧ a.metric = k) =
      if sampleVariance ms c k ≠ 0 ∧
          4 * sampleVariance ms c k ≤ (currentValue ms c k - sampleMean ms c k) ^ 2 then
        [theAnomaly ms c k]
      else []) ∧
    ((sampleVariance ms c k ≠ 0 ∧
        4 * sampleVariance ms c k ≤ (currentValue ms c k - sampleMean ms c k) ^ 2) ↔
      (Real.sqrt (sampleVariance ms c k) ≠ 0 ∧
        2 * Real.sqrt (sampleVariance ms c k) ≤
          |((currentValue ms c k : ℝ) - (sampleMean ms c k : ℝ))|)) ∧
    ((theAnomaly ms c k).severity = Severity.critical ↔
      9 * sampleVariance ms c k ≤ (currentValue ms c k - sampleMean ms c k) ^ 2) ∧
    (9 * sampleVariance ms c k ≤ (currentValue ms c k - sampleMean ms c k) ^ 2 ↔
      3 * Real.sqrt (sampleVariance ms c k) ≤
        |((currentValue ms c k : ℝ) - (sampleMean ms c k : ℝ))|) := by
  have hvpos : 0 ≤ sampleVariance ms c k := listVariance_nonneg _
  refine ⟨?_, ?_, ?_, ?_⟩
  · have e1 : sampleVariance ms c k = listVariance (posValues k (campaignHist ms c)) := rfl
    have e2 : sampleMean ms c k = listMean (posValues k (campaignHist ms c)) := rfl
    have e3 : currentValue ms c k =
        metricValue k ((campaignSeries ms c).getLastD emptyMetric) := rfl
    rw [detect_filter_campaign_metric ms c k h8, checkMetric_if _ _ _ _ _ _ h5,
      ← e1, ← e2, ← e3]
    split_ifs with h
    · rfl
    · rfl
  · have h4 : (4 : ℚ) = 2 ^ 2 := by norm_num
    rw [h4, kvar_le_iff 2 _ _ (by norm_num) hvpos, sqrt_ne_zero_iff _ hvpos]
    constructor
    · rintro ⟨h1, h2⟩
      exact ⟨h1, by push_cast at h2 ⊢; exact h2⟩
    · rintro ⟨h1, h2⟩
      exact ⟨h1, by push_cast at h2 ⊢; exact h2⟩
  · rw [theAnomaly, mkAnomaly]
    by_cases h9 : 9 * sampleVariance ms c k ≤ (currentValue ms c k - sampleMean ms c k) ^ 2
    · simp [h9]
    · simp [h9]
  · have h9 : (9 : ℚ) = 3 ^ 2 := by norm_num
    rw [h9, kvar_le_iff 3 _ _ (by norm_num) hvpos]
    constructor
    · intro h2
      push_cast at h2 ⊢
      exact h2
    · intro h2
      push_cast at h2 ⊢
      exact h2

/-- C1 witness: the 8-record campaign `a` of `spikeA` instantiates the
amended claim. -/
theorem anomaly_iff_two_sigma_witness :
    ((detectAnomalies spikeA).filter fun a =>
        a.campaignId = "a" ∧ a.metric = MetricKey.spend) =
      (if sampleVariance spikeA "a" MetricKey.spend ≠ 0 ∧
          4 * sampleVariance spikeA "a" MetricKey.spend ≤
            (currentValue spikeA "a" MetricKey.spend -
              sampleMean spikeA "a" MetricKey.spend) ^ 2 then
        [theAnomaly spikeA "a" MetricKey.spend]
      else []) :=
  (anomaly_iff_two_sigma spikeA "a" MetricKey.spend (by decide) (by decide)).1

/-! ## C2 -/

/-- C2: `calculateHealthScore` returns exactly
`clamp (100 − 10·critical − 3·warning − 5·highPriority − 5·offTrack) [0,100]`
over whole lists, the result is always within [0, 100], and the report's
`healthScore` is computed from the three components' full outputs (not the
top-10 slices). -/
theorem health_score_spec (clock : MonthClock) (cs : List Campaign)
    (ms : List DailyMetric) (anoms : List Anomaly) (recs : List BudgetRecommendation)
    (pacing : List PacingStatus) :
    calculateHealthScore anoms recs pacing =
      max 0 (min 100
        (100 - 10 * ((anoms.filter fun a => a.severity = Severity.critical).length : ℚ)
          - 3 * ((anoms.filter fun a => a.severity = Severity.warning).length : ℚ)
          - 5 * ((recs.filter fun r => r.priority = Priority.high).length : ℚ)
          - 5 * ((pacing.filter fun p => p.pacingStatus ≠ PacingState.on_track).length : ℚ))) ∧
    0 ≤ calculateHealthScore anoms recs pacing ∧
    calculateHealthScore anoms recs pacing ≤ 100 ∧
    (computeInsights clock cs ms).healthScore =
      calculateHealthScore (detectAnomalies ms) (generateBudgetRecommendations cs ms)
        (calculatePacing clock cs ms) := by
  refine ⟨?_, ?_, ?_, rfl⟩
  · rw [calculateHealthScore]
    ring_nf
  · rw [calculateHealthScore]
    exact le_max_left _ _
  · rw [calculateHealthScore]
    exact max_le (by norm_num) (min_le_left _ _)

/-! ## C3 -/

/-- C3 (code bug): the pacing recommendation text divides
`|projectedVariance|` by `daysRemaining` without a guard.  On the last day of
a 30-day month (`daysElapsed = daysInMonth = 30`, so `daysRemaining = 0`) a
campaign with daily budget 1 that has spent 40 > 1.1 × 30 is `overspending`
with `projectedVariance = 10 ≠ 0`, and the reduce-spend branch runs
`(Math.abs(projectedVariance) / daysRemaining).toFixed(2)` — `10 / 0`, which
JS renders as `Infinity` in the output string.  (In the `ℚ` embedding the
same division yields `0`, so the zero denominator is exhibited through the
status together with `daysRemaining = 0`.) -/
theorem pacing_recommendation_divides_by_zero :
    (calculatePacing lastDayClock [paceC] paceMs).map (fun p => p.pacingStatus) =
      [PacingState.overspending] ∧
    (calculatePacing lastDayClock [paceC] paceMs).map (fun p => p.projectedVariance) =
      [10] ∧
    (lastDayClock.daysInMonth : ℚ) - (lastDayClock.daysElapsed : ℚ) = 0 := by decide

/-! ## C4 -/

theorem poolEntry_eq_some (ms : List DailyMetric) (c : Campaign) (e : EffEntry) :
    poolEntry ms c = some e ↔
      ((ms.filter fun m => m.campaignId = c.id) ≠ [] ∧ 10 ≤ aggSpend ms c.id ∧
        e = { campaign := c, efficiency := campaignEfficiency ms c.id,
              roas := campaignRoas ms c.id, cpa := campaignCpa ms c.id }) := by
  rw [poolEntry, campaignAgg_eq]
  by_cases hemp : (ms.filter fun m => m.campaignId = c.id).isEmpty
  · rw [if_pos hemp]
    simp [List.isEmpty_iff.1 hemp]
  · rw [if_neg hemp]
    rw [List.isEmpty_iff] at hemp
    show (if aggSpend ms c.id < 10 then none
      else some { campaign := c, efficiency := campaignEfficiency ms c.id,
                  roas := campaignRoas ms c.id, cpa := campaignCpa ms c.id } :
        Option EffEntry) = some e ↔ _
    by_cases hsp : aggSpend ms c.id < 10
    · rw [if_pos hsp]
      constructor
      · intro h
        exact absurd h (by simp)
      · rintro ⟨_, hge, _⟩
        linarith
    · rw [if_neg hsp]
      constructor
      · intro h
        exact ⟨hemp, not_lt.1 hsp, (Option.some.inj h).symm⟩
      · rintro ⟨_, _, rfl⟩
        rfl

/-- C4 counterexample: campaign `a` of `budA` has a null `dailyBudgetMicros`
yet enters the efficiency pool (its window spend is 10), counts toward the
two-campaign requirement, and the engine emits recommendations — the claimed
"non-null dailyBudgetMicros" condition for pool membership does not hold on
the code. -/
theorem pool_without_budget :
    (efficiencyPool [budA, budB] budMs).map (fun e => e.campaign.id) = ["a", "b"] ∧
    budA.dailyBudgetMicros = none ∧
    generateBudgetRecommendations [budA, budB] budMs ≠ [] := by decide

/-- C4 (amended): a campaign enters the efficiency pool — and counts toward
the ≥2-campaign requirement and the average efficiency — iff it is in the
campaign list, appears in the window's metric data, and its aggregate spend
is at least 10 currency units; a daily budget is NOT required for pool
membership (it only gates whether that campaign's own recommendation is
emitted).  No recommendations are produced unless at least two such
qualifying campaigns exist. -/
theorem efficiency_pool_spec (cs : List Campaign) (ms : List DailyMetric) (c : Campaign) :
    ((∃ e ∈ efficiencyPool cs ms, e.campaign = c) ↔
      (c ∈ cs ∧ (ms.filter fun m => m.campaignId = c.id) ≠ [] ∧
        10 ≤ aggSpend ms c.id)) ∧
    (generateBudgetRecommendations cs ms = [] ∨ 2 ≤ (efficiencyPool cs ms).length) := by
  constructor
  · constructor
    · rintro ⟨e, he, rfl⟩
      rcases List.mem_filterMap.1 he with ⟨c', hc', hsome⟩
      rcases (poolEntry_eq_some ms c' e).1 hsome with ⟨hne, hsp, hee⟩
      have hcc : e.campaign = c' := by rw [hee]
      rw [hcc]
      exact ⟨hc', hne, hsp⟩
    · rintro ⟨hc, hne, hsp⟩
      refine ⟨{ campaign := c, efficiency := campaignEfficiency ms c.id,
                roas := campaignRoas ms c.id, cpa := campaignCpa ms c.id },
        List.mem_filterMap.2 ⟨c, hc, ?_⟩, rfl⟩
      exact (poolEntry_eq_some ms c _).2 ⟨hne, hsp, rfl⟩
  · by_cases h7 : ms.length < 7
    · left
      rw [generateBudgetRecommendations, if_pos h7]
    · by_cases h2 : (efficiencyPool cs ms).length < 2
      · left
        simp only [generateBudgetRecommendations, if_neg h7, if_pos h2]
      · right
        omega

/-! ## C5 -/

/-- C5 counterexample: `oneDayMs` holds seven raw records that all fall on
the same calendar day (one distinct day), yet the forecaster emits its three
forecasts and the budget engine emits recommendations — the "≥ 7 distinct
days" precondition is not what the code checks. -/
theorem seven_distinct_days_not_required :
    ((oneDayMs.map fun m => m.date).dedup).length = 1 ∧
    generateForecasts c9clock oneDayMs ≠ [] ∧
    generateBudgetRecommendations [budA', budB] oneDayMs ≠ [] := by decide

/-- C5 (amended): both gates count raw records, not distinct days: the
forecaster's output is non-empty exactly when the input has at least 7
records (regardless of how many distinct dates they span), and with fewer
than 7 records the budget engine returns no recommendations. -/
theorem seven_records_gate (clock : MonthClock) (cs : List Campaign)
    (ms : List DailyMetric) :
    ((generateForecasts clock ms ≠ []) ↔ 7 ≤ ms.length) ∧
    (7 ≤ ms.length ∨ generateBudgetRecommendations cs ms = []) := by
  constructor
  · constructor
    · intro h
      by_contra hlt
      rw [not_le] at hlt
      exact h (by rw [generateForecasts, if_pos hlt])
    · intro h
      rw [generateForecasts, if_neg (by omega)]
      simp
  · by_cases h7 : 7 ≤ ms.length
    · left
      exact h7
    · right
      rw [generateBudgetRecommendations, if_pos (by omega)]

/-! ## C6 -/

theorem mem_pool_fields {cs : List Campaign} {ms : List DailyMetric} {e : EffEntry}
    (he : e ∈ efficiencyPool cs ms) :
    e.efficiency = campaignEfficiency ms e.campaign.id := by
  rcases List.mem_filterMap.1 he with ⟨c', _, hsome⟩
  rcases (poolEntry_eq_some ms c' e).1 hsome with ⟨_, _, rfl⟩
  rfl

/-- C6: every emitted budget recommendation has
`changePct = clamp (10 × (efficiency − avgEfficiency)) [−30, 30]`,
`recommendedBudget = currentBudget × (1 + changePct/100)`, and
`|changePct| ≥ 5` — nothing inside the 5% dead zone is emitted. -/
theorem budget_rec_sound (cs : List Campaign) (ms : List DailyMetric)
    (r : BudgetRecommendation) (hr : r ∈ generateBudgetRecommendations cs ms) :
    r.changePct =
      max (-30) (min 30 (10 * (campaignEfficiency ms r.campaignId - avgEfficiency cs ms))) ∧
    -30 ≤ r.changePct ∧ r.changePct ≤ 30 ∧ 5 ≤ |r.changePct| ∧
    r.recommendedBudget = r.currentBudget * (1 + r.changePct / 100) := by
  simp only [generateBudgetRecommendations] at hr
  split_ifs at hr with h7 h2
  · exact absurd hr (List.not_mem_nil r)
  · exact absurd hr (List.not_mem_nil r)
  · have hr2 : r ∈ (efficiencyPool cs ms).filterMap _ := (List.mem_insertionSort recLE).1 hr
    rcases List.mem_filterMap.1 hr2 with ⟨e, he, hsome⟩
    have heff : e.efficiency = campaignEfficiency ms e.campaign.id := mem_pool_fields he
    by_cases hb : e.campaign.dailyBudgetMicros.getD 0 / 1000000 = 0
    · rw [if_pos hb] at hsome
      exact absurd hsome (by simp)
    · rw [if_neg hb] at hsome
      by_cases hdz : |max (-30) (min 30 ((e.efficiency - avgEfficiency cs ms) * 10))| < 5
      · rw [if_pos hdz] at hsome
        exact absurd hsome (by simp)
      · rw [if_neg hdz] at hsome
        obtain rfl := Option.some.inj hsome
        refine ⟨?_, le_max_left _ _, max_le (by norm_num) (min_le_left _ _),
          not_lt.1 hdz, rfl⟩
        show max (-30) (min 30 ((e.efficiency - avgEfficiency cs ms) * 10)) =
          max (-30) (min 30 (10 * (campaignEfficiency ms e.campaign.id - avgEfficiency cs ms)))
        rw [heff]
        ring_nf

/-- C6 witness: the first recommendation emitted for `[budA', budB]` on
`budMs` satisfies the clamp, dead-zone and budget formulas. -/
theorem budget_rec_sound_witness :
    c6rec.changePct =
      max (-30) (min 30 (10 * (campaignEfficiency budMs c6rec.campaignId -
        avgEfficiency [budA', budB] budMs))) ∧
    -30 ≤ c6rec.changePct ∧ c6rec.changePct ≤ 30 ∧ 5 ≤ |c6rec.changePct| ∧
    c6rec.recommendedBudget = c6rec.currentBudget * (1 + c6rec.changePct / 100) :=
  budget_rec_sound [budA', budB] budMs c6rec (by decide)

/-! ## C7 -/

/-- C7: for every campaign with a non-null, positive `dailyBudgetMicros`, a
pacing entry exists and its status is `overspending` iff
`spentToDate / expectedSpend > 1.1`, `underspending` iff that ratio is
`< 0.9` and `on_track` otherwise, where
`expectedSpend = periodBudget × (daysElapsed / daysInMonth)` and
`periodBudget = dailyBudget × daysInMonth`; when `expectedSpend = 0` the
status is `on_track` by definition.  (Budgets are non-negative integer micros
in the documented input domain, so non-null and non-zero means positive.) -/
theorem pacing_status_thresholds (clock : MonthClock) (ms : List DailyMetric)
    (c : Campaign) (b : ℚ) (hb : c.dailyBudgetMicros = some b) (hbpos : 0 < b) :
    let periodBudget := b / 1000000 * clock.daysInMonth
    let expected := periodBudget * ((clock.daysElapsed : ℚ) / clock.daysInMonth)
    let ratio := monthSpendOf clock ms c.id / expected
    (((pacingEntry clock (monthSpendOf clock ms) c).map fun p => p.pacingStatus) =
        some PacingState.overspending ↔ 0 < expected ∧ 11 / 10 < ratio) ∧
    (((pacingEntry clock (monthSpendOf clock ms) c).map fun p => p.pacingStatus) =
        some PacingState.underspending ↔ 0 < expected ∧ ratio < 9 / 10) ∧
    (((pacingEntry clock (monthSpendOf clock ms) c).map fun p => p.pacingStatus) =
        some PacingState.on_track ↔
      expected = 0 ∨ (0 < expected ∧ 9 / 10 ≤ ratio ∧ ratio ≤ 11 / 10)) := by
  intro periodBudget expected ratio
  have hbne : ¬ b / 1000000 = 0 := by positivity
  have hE : ((clock.daysElapsed : ℚ) / clock.daysInMonth) * (b / 1000000 * clock.daysInMonth) =
      expected := by
    show _ = b / 1000000 * clock.daysInMonth * ((clock.daysElapsed : ℚ) / clock.daysInMonth)
    ring
  have hexp_nonneg : 0 ≤ expected := by
    show 0 ≤ b / 1000000 * clock.daysInMonth * ((clock.daysElapsed : ℚ) / clock.daysInMonth)
    positivity
  rw [pacingEntry, hb]
  simp only [Option.getD_some, if_neg hbne, Option.map_some, hE]
  by_cases hpos : 0 < expected
  · rw [if_pos hpos]
    by_cases hr1 : 11 / 10 < ratio
    · rw [if_pos hr1]
      refine ⟨iff_of_true rfl ⟨hpos, hr1⟩, iff_of_false (by simp) ?_,
        iff_of_false (by simp) ?_⟩
      · rintro ⟨_, h2⟩
        linarith
      · rintro (h | ⟨_, _, h2⟩)
        · linarith
        · linarith
    · rw [if_neg hr1]
      by_cases hr2 : ratio < 9 / 10
      · rw [if_pos hr2]
        refine ⟨iff_of_false (by simp) ?_, iff_of_true rfl ⟨hpos, hr2⟩,
          iff_of_false (by simp) ?_⟩
        · rintro ⟨_, h1⟩
          linarith
        · rintro (h | ⟨_, h1, _⟩)
          · linarith
          · linarith
      · rw [if_neg hr2]
        refine ⟨iff_of_false (by simp) ?_, iff_of_false (by simp) ?_,
          iff_of_true rfl (Or.inr ⟨hpos, not_lt.1 hr2, not_lt.1 hr1⟩)⟩
        · rintro ⟨_, h1⟩
          exact hr1 h1
        · rintro ⟨_, h2⟩
          exact hr2 h2
  · rw [if_neg hpos]
    have hzero : expected = 0 := le_antisymm (not_lt.1 hpos) hexp_nonneg
    refine ⟨iff_of_false (by simp) ?_, iff_of_false (by simp) ?_,
      iff_of_true rfl (Or.inl hzero)⟩
    · rintro ⟨h1, _⟩
      exact hpos h1
    · rintro ⟨h1, _⟩
      exact hpos h1

/-- C7 witness: the spec's pacing scenario — $100/day budget, day 15 of a
30-day month, $2000 spent to date (expected $1500, ratio 4/3 > 1.1,
overspending). -/
theorem pacing_status_thresholds_witness :
    let periodBudget := (100000000 : ℚ) / 1000000 * c7clock.daysInMonth
    let expected := periodBudget * ((c7clock.daysElapsed : ℚ) / c7clock.daysInMonth)
    let ratio := monthSpendOf c7clock c7ms c7c.id / expected
    (((pacingEntry c7clock (monthSpendOf c7clock c7ms) c7c).map fun p => p.pacingStatus) =
        some PacingState.overspending ↔ 0 < expected ∧ 11 / 10 < ratio) ∧
    (((pacingEntry c7clock (monthSpendOf c7clock c7ms) c7c).map fun p => p.pacingStatus) =
        some PacingState.underspending ↔ 0 < expected ∧ ratio < 9 / 10) ∧
    (((pacingEntry c7clock (monthSpendOf c7clock c7ms) c7c).map fun p => p.pacingStatus) =
        some PacingState.on_track ↔
      expected = 0 ∨ (0 < expected ∧ 9 / 10 ≤ ratio ∧ ratio ≤ 11 / 10)) :=
  pacing_status_thresholds c7clock c7ms c7c 100000000 rfl (by norm_num)

/-! ## C8 -/

theorem anomLE_consequence {a b : Anomaly} (h : anomLE a b) :
    (a.severity = Severity.warning → b.severity = Severity.warning) ∧
    (a.severity = b.severity → |b.deviationPct| ≤ |a.deviationPct|) := by
  rw [anomLE, anomCmp] at h
  cases ha : a.severity <;> cases hb : b.severity
  case warning.warning =>
    rw [ha, hb] at h
    rw [if_neg (by simp), if_neg (by simp)] at h
    exact ⟨fun _ => rfl, fun _ => sub_nonpos.1 h⟩
  case warning.critical =>
    rw [ha, hb] at h
    rw [if_neg (by simp), if_pos (by simp)] at h
    norm_num at h
  case critical.warning =>
    exact ⟨fun hw => Severity.noConfusion hw, fun he => Severity.noConfusion he⟩
  case critical.critical =>
    rw [ha, hb] at h
    rw [if_neg (by simp), if_neg (by simp)] at h
    exact ⟨fun hw => Severity.noConfusion hw, fun _ => sub_nonpos.1 h⟩

/-- C8: the report's `anomalies.items` is the first 10 of the flagged list
sorted with critical entries before warnings and |deviationPct| descending
within equal severity, while `total` / `critical` / `warning` count the
entire flagged set, not the slice. -/
theorem anomalies_ranking (clock : MonthClock) (cs : List Campaign)
    (ms : List DailyMetric) :
    (computeInsights clock cs ms).anomalies.items = (detectAnomalies ms).take 10 ∧
    (detectAnomalies ms).Perm (flaggedAnomalies ms) ∧
    List.Pairwise (fun a b =>
      (a.severity = Severity.warning → b.severity = Severity.warning) ∧
      (a.severity = b.severity → |b.deviationPct| ≤ |a.deviationPct|))
      (detectAnomalies ms) ∧
    (computeInsights clock cs ms).anomalies.total = (flaggedAnomalies ms).length ∧
    (computeInsights clock cs ms).anomalies.critical =
      ((flaggedAnomalies ms).filter fun a => a.severity = Severity.critical).length ∧
    (computeInsights clock cs ms).anomalies.warning =
      ((flaggedAnomalies ms).filter fun a => a.severity = Severity.warning).length := by
  have hperm : (detectAnomalies ms).Perm (flaggedAnomalies ms) :=
    List.perm_insertionSort anomLE (flaggedAnomalies ms)
  refine ⟨rfl, hperm, ?_, ?_, ?_, ?_⟩
  · exact List.Pairwise.imp (fun h => anomLE_consequence h)
      (List.sorted_insertionSort anomLE (flaggedAnomalies ms))
  · exact hperm.length_eq
  · exact (hperm.filter _).length_eq
  · exact (hperm.filter _).length_eq

/-! ## C9: permutation invariance machinery -/

theorem mapFold_keys_perm {α κ υ : Type} [DecidableEq κ] (key : α → κ) (z : υ)
    (comb : υ → α → υ) {xs1 xs2 : List α} (hp : xs1.Perm xs2) :
    ((mapFold key z comb xs1).map Prod.fst).Perm
      ((mapFold key z comb xs2).map Prod.fst) := by
  simp only [mapFold]
  rw [List.perm_ext_iff_of_nodup
    (foldl_mapUpd_keys_nodup key z comb xs1 [] (by simp))
    (foldl_mapUpd_keys_nodup key z comb xs2 [] (by simp))]
  intro c
  rw [foldl_mapUpd_keys_mem, foldl_mapUpd_keys_mem]
  simp only [List.map_nil, List.not_mem_nil, false_or]
  constructor
  · rintro ⟨x, hx, hk⟩
    exact ⟨x, hp.mem_iff.1 hx, hk⟩
  · rintro ⟨x, hx, hk⟩
    exact ⟨x, hp.mem_iff.2 hx, hk⟩

theorem filter_dates_nodup {ms : List DailyMetric}
    (hnd : (ms.map fun m => (m.campaignId, m.date)).Nodup) (c : String) :
    ((ms.filter fun m => m.campaignId = c).map fun m => m.date).Nodup := by
  have hsub : ((ms.filter fun m => m.campaignId = c).map
      fun m => (m.campaignId, m.date)).Sublist (ms.map fun m => (m.campaignId, m.date)) :=
    (List.filter_sublist _).map _
  have hnd2 := hnd.sublist hsub
  rw [List.Nodup, List.pairwise_map] at hnd2 ⊢
  refine hnd2.imp_of_mem ?_
  intro a b ha hb hne hd
  have hca : a.campaignId = c := by simpa using (List.mem_filter.1 ha).2
  have hcb : b.campaignId = c := by simpa using (List.mem_filter.1 hb).2
  exact hne (by rw [hca, hcb, hd])

theorem campaign_filter_sort_eq {ms1 ms2 : List DailyMetric} (hp : ms1.Perm ms2)
    (hnd : (ms1.map fun m => (m.campaignId, m.date)).Nodup) (c : String) :
    seriesSort (ms1.filter fun m => m.campaignId = c) =
      seriesSort (ms2.filter fun m => m.campaignId = c) := by
  refine sorted_perm_nodup_eq (fun m => m.date) ?_ ?_ ?_ ?_
  · exact (List.perm_insertionSort _ _).trans
      ((hp.filter _).trans (List.perm_insertionSort _ _).symm)
  · exact List.sorted_insertionSort dateLE _
  · exact List.sorted_insertionSort dateLE _
  · have h1 : ((seriesSort (ms1.filter fun m => m.campaignId = c)).map
        fun m => m.date).Perm ((ms1.filter fun m => m.campaignId = c).map fun m => m.date) :=
      (List.perm_insertionSort dateLE _).map _
    exact h1.nodup_iff.2 (filter_dates_nodup hnd c)

theorem campaignAnomalies_congr {c : String} {l1 l2 : List DailyMetric}
    (hlen : l1.length = l2.length) (hsort : seriesSort l1 = seriesSort l2) :
    campaignAnomalies (c, l1) = campaignAnomalies (c, l2) := by
  simp only [campaignAnomalies, seriesHist, hlen, hsort]

theorem flaggedAnomalies_perm {ms1 ms2 : List DailyMetric} (hp : ms1.Perm ms2)
    (hnd : (ms1.map fun m => (m.campaignId, m.date)).Nodup) :
    (flaggedAnomalies ms1).Perm (flaggedAnomalies ms2) := by
  rw [flaggedAnomalies, flaggedAnomalies, hp.length_eq]
  by_cases h7 : ms2.length < 7
  · rw [if_pos h7, if_pos h7]
  · rw [if_neg h7, if_neg h7]
    have hform : ∀ ms : List DailyMetric,
        (groupByCampaign ms).map campaignAnomalies =
          ((groupByCampaign ms).map Prod.fst).map
            (fun c => campaignAnomalies (c, ms.filter fun m => m.campaignId = c)) := by
      intro ms
      rw [List.map_map]
      refine List.map_congr_left fun g hg => ?_
      have h2 := mem_groupByCampaign_eq hg
      simp only [Function.comp_apply]
      rw [← h2]
    rw [hform ms1, hform ms2]
    have hptw : ((groupByCampaign ms1).map Prod.fst).map
        (fun c => campaignAnomalies (c, ms1.filter fun m => m.campaignId = c)) =
        ((groupByCampaign ms1).map Prod.fst).map
          (fun c => campaignAnomalies (c, ms2.filter fun m => m.campaignId = c)) := by
      refine List.map_congr_left fun c _ => ?_
      exact campaignAnomalies_congr (hp.filter _).length_eq
        (campaign_filter_sort_eq hp hnd c)
    rw [hptw]
    exact ((mapFold_keys_perm _ _ _ hp).map _).flatten

theorem detectAnomalies_perm {ms1 ms2 : List DailyMetric} (hp : ms1.Perm ms2)
    (hnd : (ms1.map fun m => (m.campaignId, m.date)).Nodup) :
    (detectAnomalies ms1).Perm (detectAnomalies ms2) := by
  rw [detectAnomalies, detectAnomalies]
  exact (List.perm_insertionSort _ _).trans
    ((flaggedAnomalies_perm hp hnd).trans (List.perm_insertionSort _ _).symm)

theorem campaignAgg_perm {ms1 ms2 : List DailyMetric} (hp : ms1.Perm ms2) (cid : String) :
    campaignAgg ms1 cid = campaignAgg ms2 cid := by
  rw [campaignAgg_eq, campaignAgg_eq]
  have hf : (ms1.filter fun m => m.campaignId = cid).Perm
      (ms2.filter fun m => m.campaignId = cid) := hp.filter _
  by_cases he : (ms1.filter fun m => m.campaignId = cid).isEmpty
  · have he1 := List.isEmpty_iff.1 he
    have he2 : (ms2.filter fun m => m.campaignId = cid) = [] := by
      rw [he1] at hf
      exact hf.symm.eq_nil
    rw [if_pos he, if_pos (List.isEmpty_iff.2 he2)]
  · have he2 : ¬ (ms2.filter fun m => m.campaignId = cid).isEmpty := by
      intro h2
      apply he
      rw [List.isEmpty_iff] at h2 ⊢
      rw [h2] at hf
      exact hf.eq_nil
    rw [if_neg he, if_neg he2]
    congr 1
    congr 1
    · rw [aggSpend, aggSpend]
      exact (hf.map _).sum_eq
    · rw [aggConversions, aggConversions]
      exact (hf.map _).sum_eq
    · rw [aggConversionValue, aggConversionValue]
      exact (hf.map _).sum_eq

theorem budget_perm_eq (cs : List Campaign) {ms1 ms2 : List DailyMetric}
    (hp : ms1.Perm ms2) :
    generateBudgetRecommendations cs ms1 = generateBudgetRecommendations cs ms2 := by
  have hroas : ∀ cid, campaignRoas ms1 cid = campaignRoas ms2 cid := fun cid => by
    rw [campaignRoas, campaignRoas, campaignAgg_perm hp cid]
  have hcpa : ∀ cid, campaignCpa ms1 cid = campaignCpa ms2 cid := fun cid => by
    rw [campaignCpa, campaignCpa, campaignAgg_perm hp cid]
  have heff : ∀ cid, campaignEfficiency ms1 cid = campaignEfficiency ms2 cid := fun cid => by
    rw [campaignEfficiency, campaignEfficiency, hroas cid, hcpa cid]
  have hpoolentry : ∀ c, poolEntry ms1 c = poolEntry ms2 c := fun c => by
    rw [poolEntry, poolEntry, campaignAgg_perm hp c.id, heff c.id, hroas c.id, hcpa c.id]
  have hpool : efficiencyPool cs ms1 = efficiencyPool cs ms2 := by
    rw [efficiencyPool, efficiencyPool]
    exact List.filterMap_congr fun c _ => hpoolentry c
  have havg : avgEfficiency cs ms1 = avgEfficiency cs ms2 := by
    rw [avgEfficiency, avgEfficiency, hpool]
  rw [generateBudgetRecommendations, generateBudgetRecommendations, hp.length_eq,
    hpool, havg]

theorem forecasts_perm_eq (clock : MonthClock) {ms1 ms2 : List DailyMetric}
    (hp : ms1.Perm ms2) :
    generateForecasts clock ms1 = generateForecasts clock ms2 := by
  have hdates : forecastDates ms1 = forecastDates ms2 := by
    rw [forecastDates, forecastDates]
    have h1 : (List.insertionSort (fun a b => a ≤ b)
        ((mapFold (fun m => m.date) zeroDateAgg dateStep ms1).map Prod.fst)).Perm
        ((mapFold (fun m => m.date) zeroDateAgg dateStep ms1).map Prod.fst) :=
      List.perm_insertionSort _ _
    refine sorted_perm_nodup_eq (fun d => d) ?_ ?_ ?_ ?_
    · exact (List.perm_insertionSort _ _).trans
        ((mapFold_keys_perm _ _ _ hp).trans (List.perm_insertionSort _ _).symm)
    · exact List.sorted_insertionSort (fun a b => a ≤ b) _
    · exact List.sorted_insertionSort (fun a b => a ≤ b) _
    · have h2 := h1.nodup_iff.2 (foldl_mapUpd_keys_nodup _ _ _ ms1 [] (by simp))
      simpa using h2
  have hdv : dateValue ms1 = dateValue ms2 := by
    funext d
    rw [dateValue_eq, dateValue_eq]
    congr 1 <;> exact ((hp.filter _).map _).sum_eq
  rw [generateForecasts, generateForecasts, hp.length_eq, hdates, hdv]

theorem pacing_perm_eq (clock : MonthClock) (cs : List Campaign)
    {ms1 ms2 : List DailyMetric} (hp : ms1.Perm ms2) :
    calculatePacing clock cs ms1 = calculatePacing clock cs ms2 := by
  have hms : monthSpendOf clock ms1 = monthSpendOf clock ms2 := by
    funext cid
    rw [monthSpendOf_eq, monthSpendOf_eq]
    exact ((hp.filter _).map _).sum_eq
  rw [calculatePacing, calculatePacing, hms]

/-- C9 counterexample: `spikeA ++ spikeB` and `spikeB ++ spikeA` are
permutations of each other (two campaigns with identical series, so their
anomalies tie on severity and |deviationPct|), yet the reports differ: the
stable severity sort keeps tied anomalies in first-appearance order, so
`anomalies.items` lists campaign `a` first in one report and campaign `b`
first in the other. -/
theorem insights_not_order_invariant :
    (spikeA ++ spikeB).Perm (spikeB ++ spikeA) ∧
    computeInsights c9clock [] (spikeA ++ spikeB) ≠
      computeInsights c9clock [] (spikeB ++ spikeA) :=
  ⟨List.perm_append_comm,
   fun h =>
     absurd (congrArg (fun r => r.anomalies.items.map fun a => a.campaignId) h)
       (by decide)⟩

/-- C9 (amended): with each campaign's records carrying distinct dates (the
store's per-(campaign, day) fact invariant), permuted inputs give reports
that agree everywhere except possibly the ORDER of anomaly items that tie on
(severity, |deviationPct|) — and therefore the keyInsights line quoting the
top critical message: the anomaly lists are permutations of each other with
equal total/critical/warning counts, and the budget recommendations,
forecasts, pacing entries and health score are identical. -/
theorem insights_order_invariance (clock : MonthClock) (cs : List Campaign)
    (ms1 ms2 : List DailyMetric) (hp : ms1.Perm ms2)
    (hnd : (ms1.map fun m => (m.campaignId, m.date)).Nodup) :
    (detectAnomalies ms1).Perm (detectAnomalies ms2) ∧
    generateBudgetRecommendations cs ms1 = generateBudgetRecommendations cs ms2 ∧
    generateForecasts clock ms1 = generateForecasts clock ms2 ∧
    calculatePacing clock cs ms1 = calculatePacing clock cs ms2 ∧
    (computeInsights clock cs ms1).healthScore =
      (computeInsights clock cs ms2).healthScore ∧
    (computeInsights clock cs ms1).anomalies.total =
      (computeInsights clock cs ms2).anomalies.total ∧
    (computeInsights clock cs ms1).anomalies.critical =
      (computeInsights clock cs ms2).anomalies.critical ∧
    (computeInsights clock cs ms1).anomalies.warning =
      (computeInsights clock cs ms2).anomalies.warning := by
  have hdet := detectAnomalies_perm hp hnd
  have hrec := budget_perm_eq cs hp
  have hfc := forecasts_perm_eq clock hp
  have hpac := pacing_perm_eq clock cs hp
  refine ⟨hdet, hrec, hfc, hpac, ?_, hdet.length_eq, (hdet.filter _).length_eq,
    (hdet.filter _).length_eq⟩
  show calculateHealthScore (detectAnomalies ms1) (generateBudgetRecommendations cs ms1)
      (calculatePacing clock cs ms1) =
    calculateHealthScore (detectAnomalies ms2) (generateBudgetRecommendations cs ms2)
      (calculatePacing clock cs ms2)
  rw [calculateHealthScore, calculateHealthScore, hrec, hpac,
    (hdet.filter _).length_eq, (hdet.filter _).length_eq]

/-- C9 witness: the amended invariance applied to the concrete permuted pair
`spikeA ++ spikeB` / `spikeB ++ spikeA`. -/
theorem insights_order_invariance_witness :
    (detectAnomalies (spikeA ++ spikeB)).Perm (detectAnomalies (spikeB ++ spikeA)) ∧
    generateBudgetRecommendations [budA', budB] (spikeA ++ spikeB) =
      generateBudgetRecommendations [budA', budB] (spikeB ++ spikeA) ∧
    generateForecasts c9clock (spikeA ++ spikeB) =
      generateForecasts c9clock (spikeB ++ spikeA) ∧
    calculatePacing c9clock [budA', budB] (spikeA ++ spikeB) =
      calculatePacing c9clock [budA', budB] (spikeB ++ spikeA) ∧
    (computeInsights c9clock [budA', budB] (spikeA ++ spikeB)).healthScore =
      (computeInsights c9clock [budA', budB] (spikeB ++ spikeA)).healthScore ∧
    (computeInsights c9clock [budA', budB] (spikeA ++ spikeB)).anomalies.total =
      (computeInsights c9clock [budA', budB] (spikeB ++ spikeA)).anomalies.total ∧
    (computeInsights c9clock [budA', budB] (spikeA ++ spikeB)).anomalies.critical =
      (computeInsights c9clock [budA', budB] (spikeB ++ spikeA)).anomalies.critical ∧
    (computeInsights c9clock [budA', budB] (spikeA ++ spikeB)).anomalies.warning =
      (computeInsights c9clock [budA', budB] (spikeB ++ spikeA)).anomalies.warning :=
  insights_order_invariance c9clock [budA', budB] (spikeA ++ spikeB) (spikeB ++ spikeA)
    List.perm_append_comm (by decide)
